import Mathlib

/-!
Verification development for the e-commerce voice-assistant request pipeline.

Shallow embedding of the deterministic core of the five-stage pipeline
(`src/graph/...`): the quality validator (`quality_validator.py`), the
evidence reconciler and synthesizer (`response_synthesizer.py`), the
rule-based fallbacks of the intent parser and query strategist
(`intent_parser.py`, `query_strategist.py`), the retrieval dispatcher
(`data_fetcher.py`) and the structured-generation wrapper
(`llm_interface.py`).

Python dictionaries become structures with `Option` fields; machine floats
used for prices and similarity scores become exact rationals (`ℚ`); the
external collaborators (generative backend, HTTP tool endpoint, the
`rapidfuzz` similarity function, the stdlib JSON parser) are parameters of
the functions that call them.  Python truthiness tests (`if x:`) on strings
and numbers are modelled explicitly (`truthy_str`, `truthy_price`).
-/

namespace Veca

/-- A couple of characters that are built by code point so that brace and
quote characters never appear literally in the file. -/
def lbrace : Char := Char.ofNat 123

def rbrace : Char := Char.ofNat 125

def squote : Char := Char.ofNat 39

def dollar : Char := ('$')

/-- ASCII lower-casing, the fragment of Python `str.lower` exercised by the
pipeline's keyword and marker scans. -/
def lower_char (c : Char) : Char :=
  let n := c.toNat
  if 65 ≤ n ∧ n ≤ 90 then Char.ofNat (n + 32) else c

def lower_list (l : List Char) : List Char := l.map lower_char

def lower_string (s : String) : String := String.mk (lower_list s.toList)

/-- `isPrefixList n h` : the list `n` is a prefix of `h`. -/
def isPrefixList : List Char → List Char → Bool
  | [], _ => true
  | _ :: _, [] => false
  | a :: as, b :: bs => a == b && isPrefixList as bs

/-- `contains_list n h` : the list `n` occurs contiguously inside `h`
(Python's `n in h` on strings). -/
def contains_list (needle : List Char) : List Char → Bool
  | [] => isPrefixList needle []
  | c :: cs => isPrefixList needle (c :: cs) || contains_list needle cs

/-- Python's substring test `needle in hay`. -/
def contains_substr (hay needle : String) : Bool :=
  contains_list needle.toList hay.toList

/-- The whitespace characters stripped by Python `str.strip()` (ASCII part). -/
def py_ws : List Char := [(' '), ('\t'), ('\n'), ('\r'), Char.ofNat 11, Char.ofNat 12]

def drop_leading_ws (l : List Char) : List Char := l.dropWhile (fun c => py_ws.contains c)

/-- Python `str.strip()` on the character-list view. -/
def py_strip_list (l : List Char) : List Char :=
  (drop_leading_ws (drop_leading_ws l.reverse).reverse)

def py_strip (s : String) : String := String.mk (py_strip_list s.toList)

/-- Python `text.split('\n')`: always returns at least one piece. -/
def split_nl : List Char → List (List Char)
  | [] => [[]]
  | c :: cs =>
    match split_nl cs with
    | [] => [[c]]
    | r :: rs => if c = ('\n') then [] :: r :: rs else (c :: r) :: rs

/-- Python `'\n'.join(lines)` on the character-list view. -/
def join_nl : List (List Char) → List Char
  | [] => []
  | [l] => l
  | l :: ls => l ++ ('\n') :: join_nl ls

/-- Python truthiness of an optional string (`None` and `""` are falsy). -/
def truthy_str : Option String → Option String
  | some s => if s = ("") then none else some s
  | none => none

/-- Python `a or b` for optional strings (falsy `a` falls through to `b`,
which is returned as-is). -/
def py_or_str (a b : Option String) : Option String :=
  match truthy_str a with
  | some s => some s
  | none => b

/-- Python truthiness of an optional numeric price (`None` and `0` falsy). -/
def truthy_price : Option ℚ → Option ℚ
  | some p => if p = 0 then none else some p
  | none => none

/-- Python `repr` of a list of strings, as used by f-string interpolation of
the ungrounded-price list. -/
def py_list_repr (l : List String) : String :=
  let q := String.mk [squote]
  String.mk [('[')] ++ String.intercalate (", ") (l.map (fun s => q ++ s ++ q)) ++ String.mk [(']')]

/-! ## Data model (`src/graph/state.py` and the dict shapes the agents use) -/

/-- One retrieved evidence record (catalog or web variant); optional keys of
the Python result dicts become `Option` fields.  Prices are rationals. -/
structure EvidenceItem where
  doc_id : Option String := none
  sku : Option String := none
  url : Option String := none
  title : Option String := none
  snippet : Option String := none
  price : Option ℚ := none
  deriving Repr, DecidableEq

/-- The evidence map `{"rag": [...], "web": [...]}`; an absent key is
observationally equal to an empty list everywhere in the pipeline
(every read is `evidence.get(src, [])` or a truthiness test). -/
structure Evidence where
  rag : List EvidenceItem := []
  web : List EvidenceItem := []
  deriving Repr, DecidableEq

/-- A citation dict. -/
structure Citation where
  doc_id : Option String := none
  url : Option String := none
  source : Option String := none
  title : Option String := none
  deriving Repr, DecidableEq

/-- The `{"$lte": q}` price filter value. -/
structure PriceFilter where
  lte : ℚ
  deriving Repr, DecidableEq

/-- The filter dict built by the planner (recognized keys only). -/
structure Filters where
  category : Option String := none
  price : Option PriceFilter := none
  deriving Repr, DecidableEq

/-- An execution plan (`query_strategist.py`); both construction paths set
every key. -/
structure Plan where
  sources : List String
  filters : Filters
  query_text : String
  fields : List String
  ranking : String
  top_k : Nat
  comparison_strategy : String
  deriving Repr, DecidableEq

/-- Parsed intent constraints. -/
structure Constraints where
  budget : Option ℚ := none
  material : Option String := none
  brand : Option String := none
  category : Option String := none
  deriving Repr, DecidableEq

/-- Parsed intent (`intent_parser.py`). -/
structure Intent where
  task : String
  constraints : Constraints
  needs_live : Bool
  deriving Repr, DecidableEq

/-- The validator's per-run log record: the `checks` dict (insertion order
`safety, evidence, citations, grounding, coherence, citation_format`) plus
the optional `safety_flags`, `status` and `issues` keys.  The wall-clock
`timestamp` key is not modelled. -/
structure ValidationLogEntry where
  checks_safety : Option String := none
  checks_evidence : Option String := none
  checks_citations : Option String := none
  checks_grounding : Option String := none
  checks_coherence : Option String := none
  checks_citation_format : Option String := none
  safety_flags : Option (List String) := none
  status : Option String := none
  issues : Option (List String) := none
  deriving Repr, DecidableEq

/-- Request payload of one tool invocation. -/
structure ToolPayload where
  query : String
  top_k : Nat
  filters : Option Filters := none
  deriving Repr, DecidableEq

/-- Per-tool execution metadata recorded by the retrieval stage; the
wall-clock `duration_ms` key is not modelled. -/
structure ToolCallLog where
  tool : String
  payload : ToolPayload
  results_count : Nat
  deriving Repr, DecidableEq

/-- One entry of the append-only `log` sequence, per producing node. -/
inductive LogEntry where
  | retrieval (tool_calls : List ToolCallLog) (total_results : List (String × Nat))
  | synth_no_results
  | synth_fallback (error : String)
  | synth_counts (rag_count web_count citations_count : Nat)
  | validation (v : ValidationLogEntry)
  deriving Repr, DecidableEq

/-- The shared mutable request state (`AgentState`).  `answer` defaults to
the empty string (the validator reads it with `state.get("answer", "")`);
`citations`, `safety_flags` and `log` default to `[]` (read with `or []`). -/
structure AgentState where
  transcript : String := ""
  intent : Option Intent := none
  plan : Option Plan := none
  evidence : Evidence := {}
  answer : String := ""
  citations : List Citation := []
  safety_flags : List String := []
  log : List LogEntry := []
  deriving Repr, DecidableEq

/-! ## Status strings -/

def sPass : String := "pass"
def sWarn : String := "warn"
def sFail : String := "fail"
def sFixed : String := "fixed"
def sPrivate : String := "private"
def sWeb : String := "web"

/-! ## Quality validator (`src/graph/agents/quality_validator.py`) -/

def ANSWER_MIN_LENGTH : Nat := 20
def ANSWER_MAX_LENGTH : Nat := 500
def MAX_CITATIONS_DISPLAY : Nat := 5
def TOP_RAG_CITATIONS : Nat := 3
def TOP_WEB_CITATIONS : Nat := 2
def PRICE_TOLERANCE : ℚ := 1 / 100

/-- Result record of `_validate_and_fix_citations`. -/
structure CitationFix where
  citations : List Citation
  status : String
  issues : List String
  deriving Repr, DecidableEq

/-- Result record of `_verify_price_grounding` / `_check_answer_coherence`. -/
structure CheckResult where
  status : String
  issues : List String
  deriving Repr, DecidableEq

/-- Result record of `_ensure_citation_format`. -/
structure FormatResult where
  answer : String
  status : String
  deriving Repr, DecidableEq

/-- `_generate_safety_response`: the canned refusal enumerating the flags. -/
def generate_safety_response (safety_issues : List String) : String :=
  ("I can help with product recommendations, but I cannot provide advice on ")
    ++ String.intercalate (", ") safety_issues
    ++ (". Please consult manufacturer instructions or a qualified professional.")

/-- The apostrophe-bearing phrase pieces are assembled from a code point so
the source file carries no literal quote character. -/
def couldnt : String := ("couldn") ++ String.mk [squote] ++ ("t")

def acknowledgment_phrases : List String :=
  [couldnt ++ (" find"), ("no products"), ("no results"), ("not found")]

/-- `_answer_acknowledges_empty_results`. -/
def answer_acknowledges_empty_results (answer_text : String) : Bool :=
  acknowledgment_phrases.any (fun phrase => contains_substr (lower_string answer_text) phrase)

/-- The canned message of the validator's empty-evidence branch
(`quality_validator.py` line 51). -/
def empty_evidence_message : String :=
  ("I ") ++ couldnt ++ (" find any products matching those criteria. Try broadening your search.")

def has_source (src : String) (cs : List Citation) : Bool :=
  cs.any (fun c => decide (c.source = some src))

def cited_doc (cs : List Citation) (d : String) : Bool :=
  cs.any (fun c => decide (c.doc_id = some d))

def cited_url (cs : List Citation) (u : String) : Bool :=
  cs.any (fun c => decide (c.url = some u))

/-- The usable document id of a catalog item:
`item.get("doc_id") or item.get("sku")`, tested for truthiness. -/
def usable_doc_id (item : EvidenceItem) : Option String :=
  truthy_str (py_or_str item.doc_id item.sku)

/-- The `{"doc_id": d, "source": "private"}` citation appended by the
catalog repair. -/
def private_citation (d : String) : Citation :=
  { doc_id := some d, source := some sPrivate }

/-- The `{"url": u, "source": "web"}` citation appended by the web repair. -/
def web_citation (u : String) : Citation :=
  { url := some u, source := some sWeb }

/-- One iteration of the `_add_rag_citations` loop. -/
def rag_cite_step (cs : List Citation) (item : EvidenceItem) : List Citation :=
  match usable_doc_id item with
  | none => cs
  | some d => if cited_doc cs d then cs else cs ++ [private_citation d]

/-- `_add_rag_citations`: walk the first `TOP_RAG_CITATIONS` catalog items
and append a `private` citation for every usable id not already cited. -/
def add_rag_citations (existing_citations : List Citation) (rag_results : List EvidenceItem) :
    List Citation :=
  (rag_results.take TOP_RAG_CITATIONS).foldl rag_cite_step existing_citations

/-- One iteration of the `_add_web_citations` loop (`item.get("url")` is
truthiness-tested). -/
def web_cite_step (cs : List Citation) (item : EvidenceItem) : List Citation :=
  match truthy_str item.url with
  | none => cs
  | some u => if cited_url cs u then cs else cs ++ [web_citation u]

/-- `_add_web_citations`: walk the first `TOP_WEB_CITATIONS` web items and
append a `web` citation for every truthy url not already cited. -/
def add_web_citations (existing_citations : List Citation) (web_results : List EvidenceItem) :
    List Citation :=
  (web_results.take TOP_WEB_CITATIONS).foldl web_cite_step existing_citations

def issue_missing_private : String := "missing_private_citations"
def issue_missing_web : String := "missing_web_citations"

/-- `_validate_and_fix_citations`.  Both `has_*_citation` flags are computed
on the incoming citation list; the web repair operates on the output of the
catalog repair.  The status comes from the catalog branch alone:
`fixed` whenever the repair branch was entered (whether or not anything
could be appended), `pass` when a private citation already existed, `warn`
otherwise (no private citation and no catalog evidence). -/
def validate_and_fix_citations (citations : List Citation) (evidence : Evidence) : CitationFix :=
  let has_rag_citation := has_source sPrivate citations
  let has_web_citation := has_source sWeb citations
  let rag_evidence := evidence.rag
  let web_evidence := evidence.web
  let fix_rag := !rag_evidence.isEmpty && !has_rag_citation
  let citations1 := if fix_rag then add_rag_citations citations rag_evidence else citations
  let status := if fix_rag then sFixed else if has_rag_citation then sPass else sWarn
  let issues1 : List String := if fix_rag then [issue_missing_private] else []
  let fix_web := !web_evidence.isEmpty && !has_web_citation
  let citations2 := if fix_web then add_web_citations citations1 web_evidence else citations1
  let issues2 := if fix_web then issues1 ++ [issue_missing_web] else issues1
  { citations := citations2, status := status, issues := issues2 }

/-- One token of `re.findall(r'\$\d+\.?\d*', answer)` starting at the head
of the input, together with the rest of the input; `none` when the head is
not the start of a match. -/
def dollar_token_at : List Char → Option (List Char × List Char)
  | [] => none
  | c :: cs =>
    if c = dollar then
      let digits := cs.takeWhile Char.isDigit
      if digits.isEmpty then none
      else
        let rest := cs.dropWhile Char.isDigit
        match rest with
        | d :: rest2 =>
          if d = ('.') then
            let frac := rest2.takeWhile Char.isDigit
            some (c :: digits ++ d :: frac, rest2.dropWhile Char.isDigit)
          else some (c :: digits, rest)
        | [] => some (c :: digits, [])
    else none

/-- Fuel-bounded driver of the findall scan; one unit of fuel per consumed
input position, so `length`-many units always suffice. -/
def scan_tokens_fuel : Nat → List Char → List (List Char)
  | 0, _ => []
  | _, [] => []
  | fuel + 1, c :: cs =>
    match dollar_token_at (c :: cs) with
    | some (tok, rest) => tok :: scan_tokens_fuel fuel rest
    | none => scan_tokens_fuel fuel cs

/-- Left-to-right, non-overlapping scan implementing
`re.findall(r'\$\d+\.?\d*', text)`. -/
def scan_dollar_tokens (l : List Char) : List (List Char) :=
  scan_tokens_fuel l.length l

/-- `re.findall(r'\$\d+\.?\d*', answer_text)` as strings. -/
def extract_price_tokens (answer_text : String) : List String :=
  (scan_dollar_tokens answer_text.toList).map String.mk

def digits_to_nat (l : List Char) : Nat :=
  l.foldl (fun n c => n * 10 + (c.toNat - 48)) 0

/-- `float(token.replace("$", ""))` for a token of the matched shape. -/
def parse_dollar_token (t : List Char) : ℚ :=
  let t := t.filter (fun c => !(c = dollar))
  let intPart := t.takeWhile Char.isDigit
  let rest := t.dropWhile Char.isDigit
  let frac :=
    match rest with
    | c :: fs => if c = ('.') then fs.takeWhile Char.isDigit else []
    | [] => []
  (digits_to_nat intPart : ℚ) + (digits_to_nat frac : ℚ) / ((10 : ℚ) ^ frac.length)

/-- `_extract_evidence_prices`: the truthy prices of all evidence items, in
source-insertion order (`rag` before `web`).  The Python code formats each
price as the string `"$p"` and `_find_ungrounded_prices` parses it back;
over rationals the round-trip is the identity, so the numeric value is kept
directly. -/
def extract_evidence_prices (evidence : Evidence) : List ℚ :=
  (evidence.rag ++ evidence.web).filterMap (fun item => truthy_price item.price)

/-- `_find_ungrounded_prices`: the mentioned tokens with no evidence price
within `PRICE_TOLERANCE`. -/
def find_ungrounded_prices (mentioned_prices : List String) (evidence_prices : List ℚ) :
    List String :=
  mentioned_prices.filter (fun t =>
    !(evidence_prices.any (fun p => decide (|parse_dollar_token t.toList - p| < PRICE_TOLERANCE))))

/-- The `potentially_ungrounded_prices` issue string (f-string with the
Python list repr). -/
def ungrounded_price_issue (ungrounded : List String) : String :=
  ("potentially_ungrounded_prices: ") ++ py_list_repr ungrounded

/-- `_verify_price_grounding`. -/
def verify_price_grounding (answer_text : String) (evidence : Evidence) : CheckResult :=
  let mentioned_prices := extract_price_tokens answer_text
  if mentioned_prices.isEmpty then { status := sPass, issues := [] }
  else
    let evidence_prices := extract_evidence_prices evidence
    let ungrounded := find_ungrounded_prices mentioned_prices evidence_prices
    if ungrounded.isEmpty then { status := sPass, issues := [] }
    else { status := sWarn, issues := [ungrounded_price_issue ungrounded] }

/-- `_check_answer_coherence`. -/
def check_answer_coherence (answer_text : String) : CheckResult :=
  if answer_text.length < ANSWER_MIN_LENGTH then
    { status := sWarn, issues := [("answer_too_short")] }
  else if answer_text.length > ANSWER_MAX_LENGTH then
    { status := sWarn, issues := [("answer_too_long")] }
  else { status := sPass, issues := [] }

/-- `_extract_domain`: the third slash-delimited segment of a url. -/
def extract_domain (url : String) : String :=
  if contains_substr url ("/") then
    let parts := url.toList.splitOn ('/')
    if parts.length > 2 then String.mk (parts.getD 2 []) else url
  else url

/-- The contribution of one citation to the sources suffix (`doc #id` for a
truthy doc id, the url's domain for a truthy url, nothing otherwise). -/
def citation_part (c : Citation) : Option String :=
  match truthy_str c.doc_id with
  | some d => some (("doc #") ++ d)
  | none =>
    match truthy_str c.url with
    | some u => some (extract_domain u)
    | none => none

def sources_open : String := ("\n\n(Sources: ")

/-- `_build_citation_suffix`. -/
def build_citation_suffix (citations : List Citation) : String :=
  let citation_parts := (citations.take MAX_CITATIONS_DISPLAY).filterMap citation_part
  if citation_parts.isEmpty then ("")
  else sources_open ++ String.intercalate (", ") citation_parts ++ (")")

/-- The case-insensitive citation-marker test of `_ensure_citation_format`. -/
def has_citation_markers (answer_text : String) : Bool :=
  contains_substr (lower_string answer_text) ("(source")
    || contains_substr (lower_string answer_text) ("doc #")

/-- `_ensure_citation_format`. -/
def ensure_citation_format (answer_text : String) (citations : List Citation) : FormatResult :=
  if citations.isEmpty || has_citation_markers answer_text then
    { answer := answer_text, status := sPass }
  else
    { answer := answer_text ++ build_citation_suffix citations, status := sFixed }

def issue_empty_evidence : String := "empty_evidence_not_acknowledged"

/-- The main (no safety flag) path of `critique`.  Note the source reads
`generated_answer = state.get("answer", "")` once at entry and every later
check — including the final `_ensure_citation_format` whose result is
written back to `state["answer"]` — uses that original text, so the
transient overwrite of `state["answer"]` in the empty-evidence branch (line
51) is clobbered by line 82 and never survives the run. -/
def critique_main (s : AgentState) : AgentState :=
  let generated_answer := s.answer
  let has_evidence := !s.evidence.rag.isEmpty || !s.evidence.web.isEmpty
  let empty_not_ack := !has_evidence && !(answer_acknowledges_empty_results generated_answer)
  let checks_evidence := if has_evidence then sPass else sWarn
  let status0 := if empty_not_ack then sFail else sPass
  let issues0 : List String := if empty_not_ack then [issue_empty_evidence] else []
  let cit := validate_and_fix_citations s.citations s.evidence
  let ground := verify_price_grounding generated_answer s.evidence
  let coher := check_answer_coherence generated_answer
  let fmt := ensure_citation_format generated_answer cit.citations
  let check_statuses := [sPass, checks_evidence, cit.status, ground.status, coher.status, fmt.status]
  let final_status :=
    if check_statuses.contains sFail then sFail
    else if check_statuses.contains sWarn then sWarn
    else status0
  { s with
    answer := fmt.answer
    citations := cit.citations
    log := s.log ++ [LogEntry.validation
      { checks_safety := some sPass
        checks_evidence := some checks_evidence
        checks_citations := some cit.status
        checks_grounding := some ground.status
        checks_coherence := some coher.status
        checks_citation_format := some fmt.status
        status := some final_status
        issues := some (issues0 ++ cit.issues ++ ground.issues ++ coher.issues) }] }

/-- `critique`: with a non-empty `safety_flags` list the answer is replaced
by the refusal, a log entry carrying only the failed safety check and the
flags is appended and the function returns at once (no `status`/`issues`
keys are written and `citations` is untouched); otherwise the sequential
checks of `critique_main` run. -/
def critique (s : AgentState) : AgentState :=
  match s.safety_flags with
  | [] => critique_main s
  | _ :: _ =>
    { s with
      answer := generate_safety_response s.safety_flags
      log := s.log ++ [LogEntry.validation
        { checks_safety := some sFail
          safety_flags := some s.safety_flags }] }

/-! ## Response synthesizer (`src/graph/agents/response_synthesizer.py`)

The `rapidfuzz` title-similarity collaborator is a parameter
`sim : String → String → ℚ` (`fuzz.token_set_ratio` on the two titles,
a float on the 0–100 scale). -/

def FUZZY_MATCH_THRESHOLD : ℚ := 80
def PRICE_VARIANCE_THRESHOLD : ℚ := 10
def MAX_EVIDENCE_ITEMS : Nat := 5
def MAX_FALLBACK_ITEMS : Nat := 3
def TITLE_TRUNCATE_LENGTH : Nat := 150
def FALLBACK_TITLE_LENGTH : Nat := 80

/-- One output record of `reconcile`.  The source stores the conflict as the
formatted string `"price_diff_{variance:.1f}%"`; the variance value itself
is kept here (the flag's presence and magnitude, not its float rendering). -/
structure ReconEntry where
  primary : EvidenceItem
  web_match : Option EvidenceItem
  score : ℚ
  conflict : Option ℚ
  source_type : String
  deriving Repr, DecidableEq

/-- The best-scoring web item for one catalog title and its score: a strict
improvement fold starting from `(None, 0)`. -/
def best_web_match (sim : String → String → ℚ) (rag_title : String)
    (web_items : List EvidenceItem) : Option EvidenceItem × ℚ :=
  web_items.foldl
    (fun acc w =>
      let similarity := sim rag_title (w.title.getD (""))
      if acc.2 < similarity then (some w, similarity) else acc)
    (none, 0)

/-- The price-conflict computation of `reconcile`: runs against the best
match whenever both truthy prices exist, with no score threshold. -/
def price_conflict_calc (rag_item : EvidenceItem) (best_match : Option EvidenceItem) :
    Option ℚ :=
  match best_match with
  | none => none
  | some b =>
    match truthy_price rag_item.price, truthy_price b.price with
    | some rag_price, some web_price =>
      let variance_percent := |rag_price - web_price| / rag_price * 100
      if variance_percent > PRICE_VARIANCE_THRESHOLD then some variance_percent else none
    | _, _ => none

/-- The record built for one catalog item in the first loop of `reconcile`. -/
def reconcile_entry (sim : String → String → ℚ) (web_items : List EvidenceItem)
    (rag_item : EvidenceItem) : ReconEntry :=
  let bm := best_web_match sim (rag_item.title.getD ("")) web_items
  { primary := rag_item
    web_match := if FUZZY_MATCH_THRESHOLD < bm.2 then bm.1 else none
    score := bm.2
    conflict := price_conflict_calc rag_item bm.1
    source_type := ("rag") }

/-- The `used_web_urls` set: the (possibly `None`) url of every best match
whose score beats the threshold. -/
def consumed_urls (sim : String → String → ℚ) (rag_items web_items : List EvidenceItem) :
    List (Option String) :=
  rag_items.filterMap (fun r =>
    let bm := best_web_match sim (r.title.getD ("")) web_items
    if FUZZY_MATCH_THRESHOLD < bm.2 then bm.1.map (fun b => b.url) else none)

/-- `reconcile`: per-catalog-item matching records followed by `web_only`
records for the never-consumed web items. -/
def reconcile (sim : String → String → ℚ) (rag_items web_items : List EvidenceItem) :
    List ReconEntry :=
  let used := consumed_urls sim rag_items web_items
  rag_items.map (reconcile_entry sim web_items)
    ++ web_items.filterMap (fun w =>
      if used.contains w.url then none
      else some { primary := w, web_match := none, score := 0, conflict := none,
                  source_type := ("web_only") })

/-- Python `s[:n]` on strings. -/
def str_take (s : String) (n : Nat) : String := String.mk (s.toList.take n)

/-- `_compile_citations`: up to five catalog then up to five web citations,
titles truncated to 150 characters. -/
def compile_citations (rag_data web_data : List EvidenceItem) : List Citation :=
  (rag_data.take MAX_EVIDENCE_ITEMS).map (fun item =>
    { doc_id := py_or_str item.doc_id item.sku
      source := some sPrivate
      title := some (str_take (item.title.getD ("")) TITLE_TRUNCATE_LENGTH) })
  ++ (web_data.take MAX_EVIDENCE_ITEMS).map (fun item =>
    { url := item.url
      source := some sWeb
      title := some (str_take (item.title.getD ("")) TITLE_TRUNCATE_LENGTH) })

/-- Decimal rendering used only inside the fallback answer's display text
(`f"${item.get('price')}"`); claims never inspect this string. -/
def rat_price_display (q : ℚ) : String :=
  if q.den = 1 then toString q.num ++ (".0") else toString q.num ++ ("/") ++ toString q.den

/-- The numbered line and citation for one fallback item (`'url' in item`
selects the web shape). -/
def fallback_item_line (idx : Nat) (item : EvidenceItem) : String × Citation :=
  let item_title := str_take (item.title.getD ("Product")) FALLBACK_TITLE_LENGTH
  match item.url with
  | some u =>
    (toString idx ++ (". ") ++ item_title ++ (" (see link)"),
     { url := some u, source := some sWeb })
  | none =>
    let price_display :=
      match truthy_price item.price with
      | some p => String.mk [dollar] ++ rat_price_display p
      | none => ("price N/A")
    (toString idx ++ (". ") ++ item_title ++ (" — ") ++ price_display,
     { doc_id := py_or_str item.doc_id item.sku, source := some sPrivate })

/-- `_generate_fallback_response`: web items preferred, else catalog items,
up to three, numbered from one. -/
def generate_fallback_response (rag_data web_data : List EvidenceItem) :
    String × List Citation :=
  let source_items :=
    if !web_data.isEmpty then web_data.take MAX_FALLBACK_ITEMS
    else rag_data.take MAX_FALLBACK_ITEMS
  let numbered := (List.range source_items.length).zip source_items
  let pairs := numbered.map (fun p => fallback_item_line (p.1 + 1) p.2)
  (("Here are options that fit your request. ")
     ++ String.intercalate (" ") (pairs.map Prod.fst)
     ++ (" See details on your screen."),
   pairs.map Prod.snd)

/-- The fixed not-found message of the synthesis short-circuit
(`response_synthesizer.py` line 88). -/
def no_results_message : String :=
  ("I ") ++ couldnt
    ++ (" find any products matching those criteria. Try broadening your search or adjusting filters.")

/-- `answer(state)`: the synthesis stage.  The generative collaborator is
the parameter `gen` (`Except.error` is the exception path; the prompt text
built for it has no effect on the state and is not modelled). -/
def answer_stage (gen : Except String String) (s : AgentState) : AgentState :=
  let rag_results := s.evidence.rag
  let web_results := s.evidence.web
  if rag_results.isEmpty && web_results.isEmpty then
    { s with
      answer := no_results_message
      citations := []
      log := s.log ++ [LogEntry.synth_no_results] }
  else
    match gen with
    | Except.ok generated_response =>
      let citation_list := compile_citations rag_results web_results
      { s with
        answer := py_strip generated_response
        citations := citation_list
        log := s.log ++ [LogEntry.synth_counts rag_results.length web_results.length
          citation_list.length] }
    | Except.error e =>
      let fb := generate_fallback_response rag_results web_results
      { s with
        answer := fb.1
        citations := fb.2
        log := s.log ++ [LogEntry.synth_fallback e,
          LogEntry.synth_counts rag_results.length web_results.length fb.2.length] }

/-! ## Intent parser fallback (`src/graph/agents/intent_parser.py`) -/

def LIVE_DATA_KEYWORDS : List String :=
  [("current price"), ("price now"), ("how much"), ("cost today"), ("latest price"),
   ("price check"),
   ("in stock"), ("available"), ("can i buy"), ("out of stock"), ("inventory"),
   ("stock status"),
   ("now"), ("today"), ("right now"), ("currently"), ("at the moment"), ("this week"),
   ("best deal"), ("cheapest"), ("lowest price"), ("compare prices"), ("price comparison"),
   ("latest reviews"), ("recent ratings"), ("current rating"), ("new reviews")]

def is_ws_char (c : Char) : Bool := py_ws.contains c

/-- Attempt of the pattern `under\s*\$?(\d+(?:\.\d{1,2})?)` (IGNORECASE) at
the head of the input: the captured budget when the whole pattern matches
here. -/
def budget_match_at (l : List Char) : Option ℚ :=
  if isPrefixList (("under").toList) (lower_list l) then
    let afterKw := l.drop 5
    let afterWs := afterKw.dropWhile is_ws_char
    let afterDollar := if afterWs.headD (' ') = dollar then afterWs.tail else afterWs
    let digits := afterDollar.takeWhile Char.isDigit
    if digits.isEmpty then none
    else
      let rest := afterDollar.dropWhile Char.isDigit
      match rest with
      | c :: rest2 =>
        if c = ('.') then
          let frac := (rest2.takeWhile Char.isDigit).take 2
          if frac.isEmpty then some ((digits_to_nat digits : ℚ))
          else some ((digits_to_nat digits : ℚ)
            + (digits_to_nat frac : ℚ) / ((10 : ℚ) ^ frac.length))
        else some ((digits_to_nat digits : ℚ))
      | [] => some ((digits_to_nat digits : ℚ))
  else none

/-- `re.search` semantics for the budget pattern: first position (left to
right) where the pattern matches. -/
def find_budget_list : List Char → Option ℚ
  | [] => none
  | c :: cs =>
    match budget_match_at (c :: cs) with
    | some q => some q
    | none => find_budget_list cs

/-- The budget extracted by
`re.search(r'under\s*\$?(\d+(?:\.\d{1,2})?)', text, re.IGNORECASE)`. -/
def find_budget (text : String) : Option ℚ := find_budget_list text.toList

/-- `_fallback_intent_extraction`. -/
def fallback_intent_extraction (text : String) : Intent :=
  let lowered := lower_string text
  { task := ("product_recommendation")
    constraints :=
      { budget := find_budget text
        material := if contains_substr lowered ("stainless") then some ("stainless steel") else none
        brand := none
        category := if contains_substr lowered ("clean") then some ("cleaning supplies") else none }
    needs_live := LIVE_DATA_KEYWORDS.any (fun kw => contains_substr lowered kw) }

/-! ## Query strategist fallback (`src/graph/agents/query_strategist.py`) -/

def CLEANING_KEYWORDS : List String :=
  [("clean"), ("cleaner"), ("disinfect"), ("sanitize"), ("wash")]

def DEFAULT_FIELDS : List String :=
  [("sku"), ("title"), ("price"), ("rating"), ("brand"), ("ingredients")]

def DEFAULT_TOP_K : Nat := 5

def RAG_SEARCH_TOOL : String := "rag.search"
def WEB_SEARCH_TOOL : String := "web.search"

/-- Python truthiness of the optional numeric budget (`None` and `0` falsy). -/
def truthy_budget : Option ℚ → Option ℚ := truthy_price

/-- `_generate_fallback_plan`. -/
def generate_fallback_plan (query_text : String) (intent : Intent)
    (constraints : Constraints) : Plan :=
  let query_lower := lower_string query_text
  let category_filter :=
    if CLEANING_KEYWORDS.any (fun kw => contains_substr query_lower kw) then
      some ("Household Cleaning")
    else none
  let budget_limit := truthy_budget constraints.budget
  let price_filter :=
    match budget_limit with
    | some b => some { lte := b }
    | none => none
  let requires_live := intent.needs_live
  { sources := if requires_live then [RAG_SEARCH_TOOL, WEB_SEARCH_TOOL] else [RAG_SEARCH_TOOL]
    filters := { category := category_filter, price := price_filter }
    query_text := query_text
    fields := DEFAULT_FIELDS
    ranking := if budget_limit.isSome then ("price_asc") else ("relevance")
    top_k := DEFAULT_TOP_K
    comparison_strategy := if requires_live then ("price_check") else ("none") }

/-! ## Evidence retrieval (`src/graph/agents/data_fetcher.py`)

The HTTP collaborator's outcome for one call is a `ToolResponse` value. -/

def DEFAULT_RESULT_LIMIT : Nat := 5
def WEB_RESULT_LIMIT : Nat := 5

/-- Outcome of one `httpx` POST to a tool endpoint: a parsed `results` list
on success, or one of the caught failure classes. -/
inductive ToolResponse where
  | ok (results : List EvidenceItem)
  | http_status_error (code : Nat)
  | request_error (msg : String)
  | other_error (msg : String)
  deriving Repr, DecidableEq

/-- `_invoke_tool`: a failing call never raises — every caught exception
class yields the empty result list. -/
def invoke_tool : ToolResponse → List EvidenceItem
  | ToolResponse.ok results => results
  | ToolResponse.http_status_error _ => []
  | ToolResponse.request_error _ => []
  | ToolResponse.other_error _ => []

def is_tool_failure : ToolResponse → Bool
  | ToolResponse.ok _ => false
  | _ => true

/-- `plan.get("sources", ["rag.search"])` over the optional plan. -/
def plan_sources : Option Plan → List String
  | some pl => pl.sources
  | none => [RAG_SEARCH_TOOL]

/-- The catalog payload: query text, top_k and the plan filters minus the
`category` key. -/
def rag_search_payload (p : Option Plan) (fallback_query : String) : ToolPayload :=
  match p with
  | none => { query := fallback_query, top_k := DEFAULT_RESULT_LIMIT, filters := some {} }
  | some pl =>
    { query := pl.query_text, top_k := pl.top_k
      filters := some { pl.filters with category := none } }

/-- The web payload: query text and `min(top_k, 5)`, no filters. -/
def web_search_payload (p : Option Plan) (fallback_query : String) : ToolPayload :=
  match p with
  | none => { query := fallback_query, top_k := min DEFAULT_RESULT_LIMIT WEB_RESULT_LIMIT }
  | some pl => { query := pl.query_text, top_k := min pl.top_k WEB_RESULT_LIMIT }

/-- `retrieve(state)`: dispatch each source named in the plan, aggregate
per-source result lists into the evidence map and log the call metadata.
The two collaborator outcomes are the parameters `ragResp`/`webResp`; each
failure degrades to `[]` inside `invoke_tool` and neither call reads the
other's output. -/
def retrieve (ragResp webResp : ToolResponse) (s : AgentState) : AgentState :=
  let data_sources := plan_sources s.plan
  let ragIncluded := data_sources.contains RAG_SEARCH_TOOL
  let webIncluded := data_sources.contains WEB_SEARCH_TOOL
  let rag_results := if ragIncluded then invoke_tool ragResp else []
  let web_results := if webIncluded then invoke_tool webResp else []
  let tool_calls :=
    (if ragIncluded then
      [{ tool := RAG_SEARCH_TOOL, payload := rag_search_payload s.plan s.transcript
         results_count := rag_results.length : ToolCallLog }]
     else [])
    ++ (if webIncluded then
      [{ tool := WEB_SEARCH_TOOL, payload := web_search_payload s.plan s.transcript
         results_count := web_results.length : ToolCallLog }]
     else [])
  let totals :=
    (if ragIncluded then [(("rag"), rag_results.length)] else [])
    ++ (if webIncluded then [(("web"), web_results.length)] else [])
  { s with
    evidence := { rag := rag_results, web := web_results }
    log := s.log ++ [LogEntry.retrieval tool_calls totals] }

/-! ## Structured generation wrapper (`src/graph/llm_interface.py`)

`generate_json` post-processes the raw model text; the model call and the
stdlib `json.loads` collaborator are parameters.  `MiniJson`/`json_parse`
model the strict stdlib parser far enough to exercise the wrapper. -/

/-- A JSON value. -/
inductive MiniJson where
  | null
  | bool (b : Bool)
  | num (q : ℚ)
  | str (s : String)
  | arr (xs : List MiniJson)
  | obj (fields : List (String × MiniJson))

/-- The markdown code-fence stripping of `generate_json`: strip, drop an
opening ``` line and a closing ``` line, re-join and strip again. -/
def strip_code_fence (response_text : String) : List Char :=
  let cleaned := py_strip_list response_text.toList
  if isPrefixList (("```").toList) cleaned then
    let lines := split_nl cleaned
    let lines1 :=
      match lines with
      | l :: rest => if isPrefixList (("```").toList) l then rest else lines
      | [] => lines
    let lines2 :=
      match lines1.getLast? with
      | some last => if py_strip_list last = ("```").toList then lines1.dropLast else lines1
      | none => lines1
    py_strip_list (join_nl lines2)
  else cleaned

/-- The recovery span of `re.search(r'\{.*\}', cleaned_text, re.DOTALL)`:
the greedy match runs from the first open brace to the last close brace. -/
def greedy_json_span (l : List Char) : Option (List Char) :=
  let fromFirst := l.dropWhile (fun c => !(c = lbrace))
  let upToLast := (fromFirst.reverse.dropWhile (fun c => !(c = rbrace))).reverse
  match upToLast with
  | [] => none
  | [_] => none
  | _ => some upToLast

/-- The typed malformed-response errors raised by `generate_json`
(`ValueError` messages, each carrying a 200-character context slice). -/
inductive GenError where
  | empty_response
  | invalid_json (context : String)
  | no_json_found (context : String)

/-- `generate_json` given the parser collaborator and the raw model text:
empty-response guard, fence stripping, one parse attempt, one greedy-span
recovery attempt, then the typed error. -/
def generate_json (parse : String → Option MiniJson) (response_text : String) :
    Except GenError MiniJson :=
  if response_text = ("") ∨ py_strip_list response_text.toList = [] then
    Except.error GenError.empty_response
  else
    let cleaned := strip_code_fence response_text
    match parse (String.mk cleaned) with
    | some j => Except.ok j
    | none =>
      match greedy_json_span cleaned with
      | some span =>
        match parse (String.mk span) with
        | some j => Except.ok j
        | none => Except.error (GenError.invalid_json (String.mk (cleaned.take 200)))
      | none => Except.error (GenError.no_json_found (String.mk (cleaned.take 200)))

/-- JSON whitespace (RFC 8259, as accepted by `json.loads`). -/
def json_ws (l : List Char) : List Char :=
  l.dropWhile (fun c => c = (' ') || c = ('\t') || c = ('\n') || c = ('\r'))

mutual

/-- Fuel-bounded recursive-descent value parser of the `json.loads` model. -/
def parse_json_value : Nat → List Char → Option (MiniJson × List Char)
  | 0, _ => none
  | fuel + 1, l =>
    match json_ws l with
    | [] => none
    | c :: cs =>
      if c = lbrace then parse_json_members fuel (json_ws cs) true
      else if c = ('[') then parse_json_items fuel (json_ws cs) true
      else if c = ('"') then
        let strChars := cs.takeWhile (fun d => !(d = ('"')))
        match cs.dropWhile (fun d => !(d = ('"'))) with
        | _ :: rest => some (MiniJson.str (String.mk strChars), rest)
        | [] => none
      else if isPrefixList (("null").toList) (c :: cs) then
        some (MiniJson.null, (c :: cs).drop 4)
      else if isPrefixList (("true").toList) (c :: cs) then
        some (MiniJson.bool true, (c :: cs).drop 4)
      else if isPrefixList (("false").toList) (c :: cs) then
        some (MiniJson.bool false, (c :: cs).drop 5)
      else
        let neg := c = ('-')
        let body := if neg then cs else c :: cs
        let digits := body.takeWhile Char.isDigit
        if digits.isEmpty then none
        else
          let rest := body.dropWhile Char.isDigit
          match rest with
          | d :: rest2 =>
            if d = ('.') then
              let frac := rest2.takeWhile Char.isDigit
              if frac.isEmpty then none
              else
                let q : ℚ := (digits_to_nat digits : ℚ)
                  + (digits_to_nat frac : ℚ) / ((10 : ℚ) ^ frac.length)
                some (MiniJson.num (if neg then -q else q), rest2.dropWhile Char.isDigit)
            else some (MiniJson.num (if neg then -(digits_to_nat digits : ℚ)
              else (digits_to_nat digits : ℚ)), rest)
          | [] => some (MiniJson.num (if neg then -(digits_to_nat digits : ℚ)
              else (digits_to_nat digits : ℚ)), [])

/-- Object members; `first` marks the position right after the open brace
where an immediate close brace is allowed. -/
def parse_json_members : Nat → List Char → Bool → Option (MiniJson × List Char)
  | 0, _, _ => none
  | fuel + 1, l, first =>
    match l with
    | c :: cs =>
      if first ∧ c = rbrace then some (MiniJson.obj [], cs)
      else
        match parse_json_value fuel l with
        | some (MiniJson.str key, rest) =>
          (match json_ws rest with
          | colon :: rest2 =>
            if colon = (':') then
              match parse_json_value fuel rest2 with
              | some (v, rest3) =>
                (match json_ws rest3 with
                | d :: rest4 =>
                  if d = (',') then
                    match parse_json_members fuel (json_ws rest4) false with
                    | some (MiniJson.obj fields, rest5) =>
                      some (MiniJson.obj ((String.mk key.toList, v) :: fields), rest5)
                    | _ => none
                  else if d = rbrace then some (MiniJson.obj [(String.mk key.toList, v)], rest4)
                  else none
                | [] => none)
              | none => none
            else none
          | [] => none)
        | _ => none
    | [] => none

/-- Array items; `first` marks the position right after the open bracket. -/
def parse_json_items : Nat → List Char → Bool → Option (MiniJson × List Char)
  | 0, _, _ => none
  | fuel + 1, l, first =>
    match l with
    | c :: cs =>
      if first ∧ c = (']') then some (MiniJson.arr [], cs)
      else
        match parse_json_value fuel l with
        | some (v, rest) =>
          (match json_ws rest with
          | d :: rest2 =>
            if d = (',') then
              match parse_json_items fuel (json_ws rest2) false with
              | some (MiniJson.arr xs, rest3) => some (MiniJson.arr (v :: xs), rest3)
              | _ => none
            else if d = (']') then some (MiniJson.arr [v], rest2)
            else none
          | [] => none)
        | none => none
    | [] => none

end

/-- The `json.loads` model: a strict parse of the whole input (trailing
non-whitespace is an error). -/
def json_parse (s : String) : Option MiniJson :=
  match parse_json_value (s.toList.length + 1) s.toList with
  | some (j, rest) => if (json_ws rest).isEmpty then some j else none
  | none => none

/-- The spec's recovery description, stated from its words for comparison
with the source's greedy regex span: the first brace-balanced span
starting at the first open brace. -/
def spec_balanced_go : List Char → Nat → List Char → Option (List Char)
  | [], _, _ => none
  | c :: cs, depth, acc =>
    if c = lbrace then spec_balanced_go cs (depth + 1) (c :: acc)
    else if c = rbrace then
      if depth = 1 then some (c :: acc).reverse
      else spec_balanced_go cs (depth - 1) (c :: acc)
    else spec_balanced_go cs depth (c :: acc)

/-- Modelled from the spec: "extract the first brace-balanced span" —
the balanced prefix beginning at the first open brace of the text. -/
def spec_first_balanced_span (l : List Char) : Option (List Char) :=
  match l.dropWhile (fun c => !(c = lbrace)) with
  | [] => none
  | c :: cs => spec_balanced_go (c :: cs) 0 []

/-! ## Concrete fixtures used by the witnesses and counterexamples -/

/-- A similarity collaborator scoring every pair 100 (an exact title match). -/
def sim100 : String → String → ℚ := fun _ _ => 100

/-- A similarity collaborator scoring every pair 50 (below the threshold). -/
def sim50 : String → String → ℚ := fun _ _ => 50

def soap10 : EvidenceItem := { title := some ("Dish Soap"), price := some 10 }

def webSoap12 : EvidenceItem :=
  { title := some ("Dish Soap"), price := some 12, url := some ("http://shop.example/soap") }

def webSoap1005 : EvidenceItem :=
  { title := some ("Dish Soap"), price := some (1005 / 100), url := some ("http://shop.example/soap") }

def itemA10 : EvidenceItem := { title := some ("A"), price := some 10 }

def webB20 : EvidenceItem :=
  { title := some ("B"), price := some 20, url := some ("http://w.example/b") }

/-- C1 input: a safety-flagged state that already carries a citation. -/
def cex_state_c1 : AgentState :=
  { answer := ("ok"), citations := [private_citation ("d")], safety_flags := [("drink")] }

/-- C2 input: catalog evidence whose only item has no usable id. -/
def ev_c2 : Evidence := { rag := [{ title := some ("T") }] }

/-- C2 witness input: catalog evidence with a usable doc id. -/
def ev_c2w : Evidence := { rag := [{ doc_id := some ("d1") }] }

def ans_c4 : String := ("Costs $12 today")

def ev_c4 : Evidence := { rag := [{ doc_id := some ("d1"), price := some 12 }] }

/-- C8 counterexample input: text whose greedy first-`{`-to-last-`}` span is
unbalanced although a balanced span exists (built from code points; it reads
as an open brace, a close brace, a space and a close brace). -/
def cex_text_c8 : String := String.mk [lbrace, rbrace, (' '), rbrace]

/-- C8 witness input: a non-JSON prefix before a brace span. -/
def wtext_c8 : String := ("x ") ++ String.mk [lbrace, rbrace]

/-- C9 witness input: a plan naming both retrieval sources. -/
def plan_c9 : Plan :=
  { sources := [RAG_SEARCH_TOOL, WEB_SEARCH_TOOL], filters := {}, query_text := ("soap")
    fields := [("sku")], ranking := ("relevance"), top_k := 5, comparison_strategy := ("none") }

def state_c9 : AgentState := { transcript := ("soap"), plan := some plan_c9 }

def web_item_c9 : EvidenceItem := { url := some ("http://w.example/1"), title := some ("W") }

/-! # Theorems -/

/-- Helper: a transport/HTTP/other failure degrades to the empty result
list inside `_invoke_tool`. -/
theorem invoke_tool_failure (resp : ToolResponse) (h : is_tool_failure resp = true) :
    invoke_tool resp = [] := by
  cases resp <;> simp_all [is_tool_failure, invoke_tool]

/-- C9: a transport or HTTP failure of a retrieval call never escapes the
evidence stage — the failing call's source gets the empty result list while
the other source's results are exactly its own collaborator outcome. -/
theorem retrieval_failure_isolation :
    (∀ resp, is_tool_failure resp = true → invoke_tool resp = [])
    ∧ (∀ (s : AgentState) (ragResp webResp : ToolResponse),
        (plan_sources s.plan).contains RAG_SEARCH_TOOL = true →
        (plan_sources s.plan).contains WEB_SEARCH_TOOL = true →
        is_tool_failure ragResp = true →
        (retrieve ragResp webResp s).evidence = { rag := [], web := invoke_tool webResp })
    ∧ (∀ (s : AgentState) (ragResp webResp : ToolResponse),
        (plan_sources s.plan).contains RAG_SEARCH_TOOL = true →
        (plan_sources s.plan).contains WEB_SEARCH_TOOL = true →
        is_tool_failure webResp = true →
        (retrieve ragResp webResp s).evidence = { rag := invoke_tool ragResp, web := [] }) := by
  refine ⟨invoke_tool_failure, ?_, ?_⟩
  · intro s ragResp webResp h1 h2 hf
    simp only [retrieve]
    rw [if_pos h1, if_pos h2, invoke_tool_failure ragResp hf]
  · intro s ragResp webResp h1 h2 hf
    simp only [retrieve]
    rw [if_pos h1, if_pos h2, invoke_tool_failure webResp hf]

/-- C9 witness: an HTTP 500 on the catalog call with a successful web call. -/
theorem retrieval_failure_isolation_witness :
    (retrieve (ToolResponse.http_status_error 500) (ToolResponse.ok [web_item_c9])
      state_c9).evidence = { rag := [], web := [web_item_c9] } :=
  retrieval_failure_isolation.2.1 state_c9 (ToolResponse.http_status_error 500)
    (ToolResponse.ok [web_item_c9]) (by decide) (by decide) (by decide)

/-- C6: with both evidence lists empty the synthesis stage short-circuits to
the fixed not-found message, empty citations and a `no_results` log entry,
for either collaborator outcome. -/
theorem synthesis_no_results (gen : Except String String) (s : AgentState)
    (hrag : s.evidence.rag = []) (hweb : s.evidence.web = []) :
    (answer_stage gen s).answer = no_results_message
    ∧ (answer_stage gen s).citations = []
    ∧ (answer_stage gen s).log = s.log ++ [LogEntry.synth_no_results] := by
  simp [answer_stage, hrag, hweb]

/-- C6 witness: the default (empty-evidence) state under a failed generation. -/
theorem synthesis_no_results_witness :
    (answer_stage (Except.error ("backend down")) {}).answer = no_results_message
    ∧ (answer_stage (Except.error ("backend down")) {}).citations = []
    ∧ (answer_stage (Except.error ("backend down")) {}).log = [] ++ [LogEntry.synth_no_results] :=
  synthesis_no_results (Except.error ("backend down")) {} rfl rfl

/-- C7: the fallback intent extraction and fallback planner on the
transcript `Find eco-friendly dish soap under $12` produce a plan with a
`lte 12` price filter, the catalog source only, and `price_asc` ranking. -/
theorem fallback_plan_scenario :
    (generate_fallback_plan ("Find eco-friendly dish soap under $12")
        (fallback_intent_extraction ("Find eco-friendly dish soap under $12"))
        (fallback_intent_extraction ("Find eco-friendly dish soap under $12")).constraints).filters.price
      = some { lte := 12 }
    ∧ (generate_fallback_plan ("Find eco-friendly dish soap under $12")
        (fallback_intent_extraction ("Find eco-friendly dish soap under $12"))
        (fallback_intent_extraction ("Find eco-friendly dish soap under $12")).constraints).sources
      = [RAG_SEARCH_TOOL]
    ∧ (generate_fallback_plan ("Find eco-friendly dish soap under $12")
        (fallback_intent_extraction ("Find eco-friendly dish soap under $12"))
        (fallback_intent_extraction ("Find eco-friendly dish soap under $12")).constraints).ranking
      = ("price_asc") := by
  refine ⟨?_, ?_, ?_⟩ <;> decide

/-- C5: for an above-threshold matched pair whose two truthy prices exist,
the reconciler flags a price conflict exactly when the relative variance
`|catalog − web| / catalog × 100` exceeds 10; at prices 10 vs 12 a conflict
of variance 20 is reported, at 10 vs 10.05 none. -/
theorem reconcile_price_variance :
    (∀ (sim : String → String → ℚ) (web_items : List EvidenceItem)
        (rag_item w : EvidenceItem) (cp wp : ℚ),
        (reconcile_entry sim web_items rag_item).web_match = some w →
        truthy_price rag_item.price = some cp →
        truthy_price w.price = some wp →
        ((reconcile_entry sim web_items rag_item).conflict ≠ none
          ↔ |cp - wp| / cp * 100 > 10))
    ∧ reconcile sim100 [soap10] [webSoap12]
        = [{ primary := soap10, web_match := some webSoap12, score := 100,
             conflict := some 20, source_type := ("rag") }]
    ∧ reconcile sim100 [soap10] [webSoap1005]
        = [{ primary := soap10, web_match := some webSoap1005, score := 100,
             conflict := none, source_type := ("rag") }] := by
  refine ⟨?_, ?_, ?_⟩
  · intro sim web_items rag_item w cp wp hwm hcp hwp
    simp only [reconcile_entry] at hwm ⊢
    split at hwm
    · rw [hwm, price_conflict_calc, hcp, hwp]
      simp only [PRICE_VARIANCE_THRESHOLD]
      split
      next h => simpa using h
      next h => simpa using h
    · simp at hwm
  · norm_num [reconcile, reconcile_entry, consumed_urls, best_web_match, price_conflict_calc,
      truthy_price, sim100, soap10, webSoap12, FUZZY_MATCH_THRESHOLD, PRICE_VARIANCE_THRESHOLD]
  · norm_num [reconcile, reconcile_entry, consumed_urls, best_web_match, price_conflict_calc,
      truthy_price, sim100, soap10, webSoap1005, FUZZY_MATCH_THRESHOLD, PRICE_VARIANCE_THRESHOLD]
    intro h
    rw [abs_of_nonneg (by norm_num : (0 : ℚ) ≤ 1 / 20)] at h
    norm_num at h

/-- C5 witness: the general equivalence applied at the matched 10-vs-12 pair. -/
theorem reconcile_price_variance_witness :
    (reconcile_entry sim100 [webSoap12] soap10).conflict ≠ none :=
  (reconcile_price_variance.1 sim100 [webSoap12] soap10 webSoap12 10 12
    (by norm_num [reconcile_entry, best_web_match, sim100, soap10, webSoap12,
      FUZZY_MATCH_THRESHOLD])
    (by norm_num [truthy_price, soap10]) (by norm_num [truthy_price, webSoap12])).mpr
    (by norm_num)

/-- C10: the conflict computation runs against the best-scoring web item
even when its score is at or below the 80 threshold, so an entry can carry
a conflict while `web_match` is absent, and that web item also surfaces as
an unconsumed `web_only` entry. -/
theorem reconcile_conflict_below_threshold :
    (∀ (sim : String → String → ℚ) (web_items : List EvidenceItem)
        (rag_item b : EvidenceItem) (sc : ℚ),
        best_web_match sim (rag_item.title.getD ("")) web_items = (some b, sc) →
        sc ≤ FUZZY_MATCH_THRESHOLD →
        (reconcile_entry sim web_items rag_item).web_match = none
        ∧ (reconcile_entry sim web_items rag_item).conflict
            = price_conflict_calc rag_item (some b))
    ∧ reconcile sim50 [itemA10] [webB20]
        = [{ primary := itemA10, web_match := none, score := 50, conflict := some 100,
             source_type := ("rag") },
           { primary := webB20, web_match := none, score := 0, conflict := none,
             source_type := ("web_only") }] := by
  refine ⟨?_, ?_⟩
  · intro sim web_items rag_item b sc hbm hsc
    have hlt : ¬ (FUZZY_MATCH_THRESHOLD < sc) := not_lt.mpr hsc
    constructor
    · simp only [reconcile_entry, hbm]
      exact if_neg hlt
    · simp only [reconcile_entry, hbm]
  · norm_num [reconcile, reconcile_entry, consumed_urls, best_web_match, price_conflict_calc,
      truthy_price, sim50, itemA10, webB20, FUZZY_MATCH_THRESHOLD, PRICE_VARIANCE_THRESHOLD,
      List.filterMap_cons, List.filterMap_nil]

/-- C10 witness: the general fact applied at score 50 with prices 10 vs 20. -/
theorem reconcile_conflict_below_threshold_witness :
    (reconcile_entry sim50 [webB20] itemA10).web_match = none
    ∧ (reconcile_entry sim50 [webB20] itemA10).conflict
        = price_conflict_calc itemA10 (some webB20) :=
  reconcile_conflict_below_threshold.1 sim50 [webB20] itemA10 webB20 50
    (by norm_num [best_web_match, sim50, itemA10, webB20])
    (by norm_num [FUZZY_MATCH_THRESHOLD])

/-- C1 counterexample: on a safety-flagged state that already carries a
citation, the validator leaves `citations` unchanged (and non-empty), and
the appended log entry carries no overall `status` key — only the failed
safety check — contradicting the claimed empty final citations. -/
theorem safety_gate_counterexample :
    cex_state_c1.safety_flags ≠ []
    ∧ (critique cex_state_c1).citations = [private_citation ("d")]
    ∧ (critique cex_state_c1).citations ≠ []
    ∧ (critique cex_state_c1).log
        = [LogEntry.validation
            { checks_safety := some sFail, safety_flags := some [("drink")] }] := by
  refine ⟨by decide, by decide, by decide, by decide⟩

/-- C1 amended: with non-empty `safety_flags` the validator overwrites the
answer with the refusal enumerating the flags, appends a log entry whose
only check is the failed safety check (carrying the flags and no overall
status), and returns immediately — `citations` is left unchanged rather
than emptied. -/
theorem safety_gate_amended (s : AgentState) (h : s.safety_flags ≠ []) :
    (critique s).answer = generate_safety_response s.safety_flags
    ∧ (critique s).citations = s.citations
    ∧ (critique s).log = s.log ++ [LogEntry.validation
        { checks_safety := some sFail, safety_flags := some s.safety_flags }] := by
  rcases hflag : s.safety_flags with - | ⟨f, fs⟩
  · exact absurd hflag h
  · simp [critique, hflag]

/-! ### Citation-repair lemmas (shared by the citation and idempotence claims) -/

/-- One catalog-repair step either leaves the list alone or appends one
fresh private citation. -/
theorem rag_step_shape (cs : List Citation) (item : EvidenceItem) :
    rag_cite_step cs item = cs
    ∨ ∃ d, usable_doc_id item = some d ∧ cited_doc cs d = false
        ∧ rag_cite_step cs item = cs ++ [private_citation d] := by
  unfold rag_cite_step
  cases husable : usable_doc_id item with
  | none => exact Or.inl rfl
  | some d =>
    by_cases hc : cited_doc cs d
    · exact Or.inl (by simp [hc])
    · exact Or.inr ⟨d, rfl, by simpa using hc, by simp [hc]⟩

/-- One web-repair step either leaves the list alone or appends one fresh
web citation. -/
theorem web_step_shape (cs : List Citation) (item : EvidenceItem) :
    web_cite_step cs item = cs
    ∨ ∃ u, truthy_str item.url = some u ∧ cited_url cs u = false
        ∧ web_cite_step cs item = cs ++ [web_citation u] := by
  unfold web_cite_step
  cases huu : truthy_str item.url with
  | none => exact Or.inl rfl
  | some u =>
    by_cases hc : cited_url cs u
    · exact Or.inl (by simp [hc])
    · exact Or.inr ⟨u, rfl, by simpa using hc, by simp [hc]⟩

/-- The catalog-repair fold only appends: the result is the input followed
by at most one fresh private citation per processed item. -/
theorem rag_fold_shape (items : List EvidenceItem) :
    ∀ cs, ∃ extra, List.foldl rag_cite_step cs items = cs ++ extra
      ∧ (∀ e ∈ extra, ∃ d, e = private_citation d)
      ∧ extra.length ≤ items.length := by
  induction items with
  | nil => exact fun cs => ⟨[], by simp, by simp, by simp⟩
  | cons it its ih =>
    intro cs
    rcases rag_step_shape cs it with hstep | ⟨d, -, -, hstep⟩
    · obtain ⟨ex, hex, hall, hlen⟩ := ih (rag_cite_step cs it)
      rw [hstep] at hex
      refine ⟨ex, ?_, hall, ?_⟩
      · rw [List.foldl_cons, hstep]
        exact hex
      · simp only [List.length_cons]
        omega
    · obtain ⟨ex, hex, hall, hlen⟩ := ih (rag_cite_step cs it)
      rw [hstep] at hex
      refine ⟨private_citation d :: ex, ?_, ?_, ?_⟩
      · rw [List.foldl_cons, hstep, hex, List.append_assoc]
        rfl
      · intro e he
        rcases List.mem_cons.mp he with he | he
        · exact ⟨d, he⟩
        · exact hall e he
      · simp only [List.length_cons]
        omega

/-- The web-repair fold only appends: the result is the input followed by
at most one fresh web citation per processed item. -/
theorem web_fold_shape (items : List EvidenceItem) :
    ∀ cs, ∃ extra, List.foldl web_cite_step cs items = cs ++ extra
      ∧ (∀ e ∈ extra, ∃ u, e = web_citation u)
      ∧ extra.length ≤ items.length := by
  induction items with
  | nil => exact fun cs => ⟨[], by simp, by simp, by simp⟩
  | cons it its ih =>
    intro cs
    rcases web_step_shape cs it with hstep | ⟨u, -, -, hstep⟩
    · obtain ⟨ex, hex, hall, hlen⟩ := ih (web_cite_step cs it)
      rw [hstep] at hex
      refine ⟨ex, ?_, hall, ?_⟩
      · rw [List.foldl_cons, hstep]
        exact hex
      · simp only [List.length_cons]
        omega
    · obtain ⟨ex, hex, hall, hlen⟩ := ih (web_cite_step cs it)
      rw [hstep] at hex
      refine ⟨web_citation u :: ex, ?_, ?_, ?_⟩
      · rw [List.foldl_cons, hstep, hex, List.append_assoc]
        rfl
      · intro e he
        rcases List.mem_cons.mp he with he | he
        · exact ⟨u, he⟩
        · exact hall e he
      · simp only [List.length_cons]
        omega

theorem has_source_append (src : String) (cs ex : List Citation) :
    has_source src (cs ++ ex) = (has_source src cs || has_source src ex) := by
  simp [has_source]

theorem has_source_of_mem {src : String} {c : Citation} {cs : List Citation}
    (hm : c ∈ cs) (hs : c.source = some src) : has_source src cs = true := by
  simp only [has_source, List.any_eq_true]
  exact ⟨c, hm, by simp [hs]⟩

theorem private_ne_web : sPrivate ≠ sWeb := by decide

/-- Private extras are invisible to the web-citation test. -/
theorem has_web_of_private_extra {ex : List Citation}
    (hall : ∀ e ∈ ex, ∃ d, e = private_citation d) :
    has_source sWeb ex = false := by
  simp only [has_source, List.any_eq_false]
  intro e he
  obtain ⟨d, rfl⟩ := hall e he
  simp only [private_citation]
  simp [private_ne_web]

/-- Web extras are invisible to the private-citation test. -/
theorem has_private_of_web_extra {ex : List Citation}
    (hall : ∀ e ∈ ex, ∃ u, e = web_citation u) :
    has_source sPrivate ex = false := by
  simp only [has_source, List.any_eq_false]
  intro e he
  obtain ⟨u, rfl⟩ := hall e he
  simp only [web_citation]
  simp [Ne.symm private_ne_web]

/-- The catalog repair either adds nothing or establishes a private
citation. -/
theorem rag_fold_or (items : List EvidenceItem) (cs : List Citation) :
    List.foldl rag_cite_step cs items = cs
    ∨ has_source sPrivate (List.foldl rag_cite_step cs items) = true := by
  obtain ⟨ex, hex, hall, -⟩ := rag_fold_shape items cs
  cases hx : ex with
  | nil => exact Or.inl (by rw [hex, hx, List.append_nil])
  | cons e es =>
    refine Or.inr ?_
    obtain ⟨d, rfl⟩ := hall e (by rw [hx]; exact List.mem_cons_self e es)
    refine has_source_of_mem (c := private_citation d) ?_ rfl
    rw [hex, hx]
    simp

/-- The web repair either adds nothing or establishes a web citation. -/
theorem web_fold_or (items : List EvidenceItem) (cs : List Citation) :
    List.foldl web_cite_step cs items = cs
    ∨ has_source sWeb (List.foldl web_cite_step cs items) = true := by
  obtain ⟨ex, hex, hall, -⟩ := web_fold_shape items cs
  cases hx : ex with
  | nil => exact Or.inl (by rw [hex, hx, List.append_nil])
  | cons e es =>
    refine Or.inr ?_
    obtain ⟨u, rfl⟩ := hall e (by rw [hx]; exact List.mem_cons_self e es)
    refine has_source_of_mem (c := web_citation u) ?_ rfl
    rw [hex, hx]
    simp

/-- The catalog repair does not change whether a web citation exists. -/
theorem has_web_rag_fold (items : List EvidenceItem) (cs : List Citation) :
    has_source sWeb (List.foldl rag_cite_step cs items) = has_source sWeb cs := by
  obtain ⟨ex, hex, hall, -⟩ := rag_fold_shape items cs
  rw [hex, has_source_append, has_web_of_private_extra hall, Bool.or_false]

/-- The web repair does not change whether a private citation exists. -/
theorem has_private_web_fold (items : List EvidenceItem) (cs : List Citation) :
    has_source sPrivate (List.foldl web_cite_step cs items) = has_source sPrivate cs := by
  obtain ⟨ex, hex, hall, -⟩ := web_fold_shape items cs
  rw [hex, has_source_append, has_private_of_web_extra hall, Bool.or_false]

theorem cited_doc_append_mono {cs : List Citation} {d : String}
    (h : cited_doc cs d = true) (ex : List Citation) : cited_doc (cs ++ ex) d = true := by
  simp only [cited_doc] at h ⊢
  rw [List.any_append, h, Bool.true_or]

/-- The catalog repair is a no-op exactly when every usable id among the
processed items is already cited. -/
theorem rag_fold_noop_iff (items : List EvidenceItem) :
    ∀ cs, List.foldl rag_cite_step cs items = cs
      ↔ ∀ it ∈ items, ∀ d, usable_doc_id it = some d → cited_doc cs d = true := by
  induction items with
  | nil => simp
  | cons it its ih =>
    intro cs
    constructor
    · intro h
      have hstep : rag_cite_step cs it = cs := by
        rcases rag_step_shape cs it with hs | ⟨d, -, -, hs⟩
        · exact hs
        · exfalso
          rw [List.foldl_cons, hs] at h
          obtain ⟨ex, hex, -, -⟩ := rag_fold_shape its (cs ++ [private_citation d])
          rw [hex] at h
          have hlen := congrArg List.length h
          simp only [List.append_assoc, List.length_append, List.length_cons,
            List.length_nil] at hlen
          omega
      rw [List.foldl_cons, hstep] at h
      intro x hx d hd
      rcases List.mem_cons.mp hx with hxx | hxx
      · subst hxx
        by_contra hcited
        simp only [Bool.not_eq_true] at hcited
        have hs : rag_cite_step cs x = cs ++ [private_citation d] := by
          unfold rag_cite_step
          rw [hd]
          simp [hcited]
        rw [hstep] at hs
        have hlen := congrArg List.length hs
        simp only [List.length_append, List.length_cons, List.length_nil] at hlen
        omega
      · exact (ih cs).mp h x hxx d hd
    · intro h
      have hstep : rag_cite_step cs it = cs := by
        unfold rag_cite_step
        cases husable : usable_doc_id it with
        | none => rfl
        | some d => simp [h it (List.mem_cons_self it its) d husable]
      rw [List.foldl_cons, hstep]
      exact (ih cs).mpr (fun x hx d hd => h x (List.mem_cons_of_mem it hx) d hd)

/-- A no-op catalog repair stays a no-op after unrelated citations are
appended. -/
theorem rag_fold_noop_append {items : List EvidenceItem} {cs : List Citation}
    (h : List.foldl rag_cite_step cs items = cs) (ex : List Citation) :
    List.foldl rag_cite_step (cs ++ ex) items = cs ++ ex := by
  refine (rag_fold_noop_iff items (cs ++ ex)).mpr ?_
  intro it hit d hd
  exact cited_doc_append_mono ((rag_fold_noop_iff items cs).mp h it hit d hd) ex

theorem mem_rag_fold {c : Citation} {cs : List Citation} (items : List EvidenceItem)
    (h : c ∈ cs) : c ∈ List.foldl rag_cite_step cs items := by
  obtain ⟨ex, hex, -, -⟩ := rag_fold_shape items cs
  rw [hex]
  exact List.mem_append_left ex h

theorem mem_web_fold {c : Citation} {cs : List Citation} (items : List EvidenceItem)
    (h : c ∈ cs) : c ∈ List.foldl web_cite_step cs items := by
  obtain ⟨ex, hex, -, -⟩ := web_fold_shape items cs
  rw [hex]
  exact List.mem_append_left ex h

/-- If some processed catalog item carries a usable id that is not yet
cited, the repair produces the corresponding private citation. -/
theorem rag_fold_exists (items : List EvidenceItem) :
    ∀ cs d, (∃ it ∈ items, usable_doc_id it = some d) → cited_doc cs d = false →
      private_citation d ∈ List.foldl rag_cite_step cs items := by
  induction items with
  | nil => simp
  | cons it its ih =>
    rintro cs d ⟨w, hw, hwid⟩ hcited
    cases husable : usable_doc_id it with
    | none =>
      have hstep : rag_cite_step cs it = cs := by unfold rag_cite_step; rw [husable]
      rw [List.foldl_cons, hstep]
      rcases List.mem_cons.mp hw with hww | hww
      · subst hww
        rw [husable] at hwid
        cases hwid
      · exact ih cs d ⟨w, hww, hwid⟩ hcited
    | some d' =>
      by_cases hdd : d' = d
      · subst hdd
        have hstep : rag_cite_step cs it = cs ++ [private_citation d'] := by
          unfold rag_cite_step
          rw [husable]
          simp [hcited]
        rw [List.foldl_cons, hstep]
        exact mem_rag_fold its (List.mem_append_right cs (by simp))
      · have hw' : w ∈ its := by
          rcases List.mem_cons.mp hw with hww | hww
          · subst hww
            rw [husable] at hwid
            exact absurd (Option.some.inj hwid) hdd
          · exact hww
        rcases rag_step_shape cs it with hstep | ⟨d'', hid'', -, hstep⟩
        · rw [List.foldl_cons, hstep]
          exact ih cs d ⟨w, hw', hwid⟩ hcited
        · have hdd'' : d'' = d' := by
            rw [husable] at hid''
            exact (Option.some.inj hid'').symm
          subst hdd''
          rw [List.foldl_cons, hstep]
          refine ih _ d ⟨w, hw', hwid⟩ ?_
          simp only [cited_doc, List.any_append, List.any_cons, List.any_nil,
            Bool.or_false]
          simp only [cited_doc] at hcited
          rw [hcited, Bool.false_or]
          simp [private_citation, hdd]

/-- If some processed web item carries a truthy url that is not yet cited,
the repair produces the corresponding web citation. -/
theorem web_fold_exists (items : List EvidenceItem) :
    ∀ cs u, (∃ it ∈ items, truthy_str it.url = some u) → cited_url cs u = false →
      web_citation u ∈ List.foldl web_cite_step cs items := by
  induction items with
  | nil => simp
  | cons it its ih =>
    rintro cs u ⟨w, hw, hwid⟩ hcited
    cases huu : truthy_str it.url with
    | none =>
      have hstep : web_cite_step cs it = cs := by unfold web_cite_step; rw [huu]
      rw [List.foldl_cons, hstep]
      rcases List.mem_cons.mp hw with hww | hww
      · subst hww
        rw [huu] at hwid
        cases hwid
      · exact ih cs u ⟨w, hww, hwid⟩ hcited
    | some u' =>
      by_cases huu' : u' = u
      · subst huu'
        have hstep : web_cite_step cs it = cs ++ [web_citation u'] := by
          unfold web_cite_step
          rw [huu]
          simp [hcited]
        rw [List.foldl_cons, hstep]
        exact mem_web_fold its (List.mem_append_right cs (by simp))
      · have hw' : w ∈ its := by
          rcases List.mem_cons.mp hw with hww | hww
          · subst hww
            rw [huu] at hwid
            exact absurd (Option.some.inj hwid) huu'
          · exact hww
        rcases web_step_shape cs it with hstep | ⟨u'', hid'', -, hstep⟩
        · rw [List.foldl_cons, hstep]
          exact ih cs u ⟨w, hw', hwid⟩ hcited
        · have : u'' = u' := by
            rw [huu] at hid''
            exact (Option.some.inj hid'').symm
          subst this
          rw [List.foldl_cons, hstep]
          refine ih _ u ⟨w, hw', hwid⟩ ?_
          simp only [cited_url, List.any_append, List.any_cons, List.any_nil,
            Bool.or_false]
          simp only [cited_url] at hcited
          rw [hcited, Bool.false_or]
          simp [web_citation, huu']

theorem cited_doc_false_count {cs : List Citation} {d : String}
    (h : cited_doc cs d = false) :
    List.countP (fun c => decide (c.doc_id = some d)) cs = 0 := by
  simp only [cited_doc, List.any_eq_false] at h
  exact List.countP_eq_zero.mpr h

theorem cited_url_false_count {cs : List Citation} {u : String}
    (h : cited_url cs u = false) :
    List.countP (fun c => decide (c.url = some u)) cs = 0 := by
  simp only [cited_url, List.any_eq_false] at h
  exact List.countP_eq_zero.mpr h

/-- The catalog repair never introduces a second citation for a doc id. -/
theorem rag_fold_doc_count (items : List EvidenceItem) :
    ∀ (cs : List Citation) (d : String),
      List.countP (fun c => decide (c.doc_id = some d)) (List.foldl rag_cite_step cs items)
        ≤ max (List.countP (fun c => decide (c.doc_id = some d)) cs) 1 := by
  induction items with
  | nil => exact fun cs d => le_max_left _ _
  | cons it its ih =>
    intro cs d
    rcases rag_step_shape cs it with hstep | ⟨d', -, hcited, hstep⟩
    · rw [List.foldl_cons, hstep]
      exact ih cs d
    · rw [List.foldl_cons, hstep]
      refine le_trans (ih (cs ++ [private_citation d']) d) ?_
      rw [List.countP_append]
      by_cases hd : d' = d
      · subst hd
        rw [cited_doc_false_count hcited]
        simp [private_citation]
      · have : List.countP (fun c => decide (c.doc_id = some d)) [private_citation d'] = 0 := by
          simp [private_citation, hd]
        rw [this]
        simp

/-- The web repair never introduces a second citation for a url. -/
theorem web_fold_url_count (items : List EvidenceItem) :
    ∀ (cs : List Citation) (u : String),
      List.countP (fun c => decide (c.url = some u)) (List.foldl web_cite_step cs items)
        ≤ max (List.countP (fun c => decide (c.url = some u)) cs) 1 := by
  induction items with
  | nil => exact fun cs u => le_max_left _ _
  | cons it its ih =>
    intro cs u
    rcases web_step_shape cs it with hstep | ⟨u', -, hcited, hstep⟩
    · rw [List.foldl_cons, hstep]
      exact ih cs u
    · rw [List.foldl_cons, hstep]
      refine le_trans (ih (cs ++ [web_citation u']) u) ?_
      rw [List.countP_append]
      by_cases hu : u' = u
      · subst hu
        rw [cited_url_false_count hcited]
        simp [web_citation]
      · have : List.countP (fun c => decide (c.url = some u)) [web_citation u'] = 0 := by
          simp [web_citation, hu]
        rw [this]
        simp

/-- The web repair leaves all doc-id counts unchanged. -/
theorem web_fold_doc_count (items : List EvidenceItem) (cs : List Citation) (d : String) :
    List.countP (fun c => decide (c.doc_id = some d)) (List.foldl web_cite_step cs items)
      = List.countP (fun c => decide (c.doc_id = some d)) cs := by
  obtain ⟨ex, hex, hall, -⟩ := web_fold_shape items cs
  rw [hex, List.countP_append]
  have : List.countP (fun c => decide (c.doc_id = some d)) ex = 0 := by
    refine List.countP_eq_zero.mpr ?_
    intro e he
    obtain ⟨u, rfl⟩ := hall e he
    simp [web_citation]
  omega

/-- The catalog repair leaves all url counts unchanged. -/
theorem rag_fold_url_count (items : List EvidenceItem) (cs : List Citation) (u : String) :
    List.countP (fun c => decide (c.url = some u)) (List.foldl rag_cite_step cs items)
      = List.countP (fun c => decide (c.url = some u)) cs := by
  obtain ⟨ex, hex, hall, -⟩ := rag_fold_shape items cs
  rw [hex, List.countP_append]
  have : List.countP (fun c => decide (c.url = some u)) ex = 0 := by
    refine List.countP_eq_zero.mpr ?_
    intro e he
    obtain ⟨d, rfl⟩ := hall e he
    simp [private_citation]
  omega

/-- Private extras are invisible to the url-citation test. -/
theorem cited_url_private_extra {ex : List Citation} {u : String}
    (hall : ∀ e ∈ ex, ∃ d, e = private_citation d) :
    cited_url ex u = false := by
  simp only [cited_url, List.any_eq_false]
  intro e he
  obtain ⟨d, rfl⟩ := hall e he
  simp [private_citation]

/-- Membership in the incoming citation list survives the repair pass. -/
theorem mem_vfc {c : Citation} {cs : List Citation} {ev : Evidence} (h : c ∈ cs) :
    c ∈ (validate_and_fix_citations cs ev).citations := by
  simp only [validate_and_fix_citations, add_rag_citations, add_web_citations]
  split
  · split
    · exact mem_web_fold _ (mem_rag_fold _ h)
    · exact mem_web_fold _ h
  · split
    · exact mem_rag_fold _ h
    · exact h

/-- The repaired citation list, written as the two conditional folds. -/
theorem vfc_citations_eq (cs : List Citation) (ev : Evidence) :
    (validate_and_fix_citations cs ev).citations =
      (if (!ev.web.isEmpty && !has_source sWeb cs) = true then
        add_web_citations
          (if (!ev.rag.isEmpty && !has_source sPrivate cs) = true then
            add_rag_citations cs ev.rag
          else cs) ev.web
      else
        (if (!ev.rag.isEmpty && !has_source sPrivate cs) = true then
          add_rag_citations cs ev.rag
        else cs)) := rfl

/-- The check status, as a function of the pre-existing private citation
and the presence of catalog evidence alone. -/
theorem vfc_status_eq (cs : List Citation) (ev : Evidence) :
    (validate_and_fix_citations cs ev).status =
      (if has_source sPrivate cs then sPass
       else if ev.rag.isEmpty then sWarn else sFixed) := by
  by_cases hp : has_source sPrivate cs = true
    <;> by_cases hre : ev.rag.isEmpty = true
    <;> simp [validate_and_fix_citations, hp, hre]

theorem add_rag_length_le (cs : List Citation) (rag : List EvidenceItem) :
    (add_rag_citations cs rag).length ≤ cs.length + TOP_RAG_CITATIONS := by
  obtain ⟨ex, hex, -, hlen⟩ := rag_fold_shape (rag.take TOP_RAG_CITATIONS) cs
  have htake : (rag.take TOP_RAG_CITATIONS).length ≤ TOP_RAG_CITATIONS :=
    List.length_take_le _ _
  simp only [add_rag_citations, hex, List.length_append]
  omega

theorem add_web_length_le (cs : List Citation) (web : List EvidenceItem) :
    (add_web_citations cs web).length ≤ cs.length + TOP_WEB_CITATIONS := by
  obtain ⟨ex, hex, -, hlen⟩ := web_fold_shape (web.take TOP_WEB_CITATIONS) cs
  have htake : (web.take TOP_WEB_CITATIONS).length ≤ TOP_WEB_CITATIONS :=
    List.length_take_le _ _
  simp only [add_web_citations, hex, List.length_append]
  omega

theorem vfc_length_le (cs : List Citation) (ev : Evidence) :
    (validate_and_fix_citations cs ev).citations.length
      ≤ cs.length + TOP_RAG_CITATIONS + TOP_WEB_CITATIONS := by
  rw [vfc_citations_eq]
  split
  · refine le_trans (add_web_length_le _ _) ?_
    split
    · have := add_rag_length_le cs ev.rag
      omega
    · omega
  · split
    · have := add_rag_length_le cs ev.rag
      omega
    · omega

theorem vfc_doc_count (cs : List Citation) (ev : Evidence) (d : String) :
    List.countP (fun c => decide (c.doc_id = some d))
        (validate_and_fix_citations cs ev).citations
      ≤ max (List.countP (fun c => decide (c.doc_id = some d)) cs) 1 := by
  rw [vfc_citations_eq]
  split
  · simp only [add_web_citations, add_rag_citations]
    rw [web_fold_doc_count]
    split
    · exact rag_fold_doc_count _ cs d
    · exact le_max_left _ _
  · split
    · simp only [add_rag_citations]
      exact rag_fold_doc_count _ cs d
    · exact le_max_left _ _

theorem vfc_url_count (cs : List Citation) (ev : Evidence) (u : String) :
    List.countP (fun c => decide (c.url = some u))
        (validate_and_fix_citations cs ev).citations
      ≤ max (List.countP (fun c => decide (c.url = some u)) cs) 1 := by
  rw [vfc_citations_eq]
  split
  · simp only [add_web_citations, add_rag_citations]
    refine le_trans (web_fold_url_count _ _ u) ?_
    split
    · rw [rag_fold_url_count]
    · exact le_rfl
  · split
    · simp only [add_rag_citations]
      rw [rag_fold_url_count]
      exact le_max_left _ _
    · exact le_max_left _ _

/-- A pre-existing private citation survives the repair pass. -/
theorem vfc_private_persists (cs : List Citation) (ev : Evidence)
    (h : has_source sPrivate cs = true) :
    ∃ c ∈ (validate_and_fix_citations cs ev).citations, c.source = some sPrivate := by
  simp only [has_source, List.any_eq_true] at h
  obtain ⟨c, hc, hcs⟩ := h
  exact ⟨c, mem_vfc hc, of_decide_eq_true hcs⟩

/-- A pre-existing web citation survives the repair pass. -/
theorem vfc_web_persists (cs : List Citation) (ev : Evidence)
    (h : has_source sWeb cs = true) :
    ∃ c ∈ (validate_and_fix_citations cs ev).citations, c.source = some sWeb := by
  simp only [has_source, List.any_eq_true] at h
  obtain ⟨c, hc, hcs⟩ := h
  exact ⟨c, mem_vfc hc, of_decide_eq_true hcs⟩

/-- If one of the first three catalog items has a usable, uncited doc id,
the repaired list holds a private citation. -/
theorem vfc_private_of_usable (cs : List Citation) (ev : Evidence) (d : String)
    (hex : ∃ it ∈ ev.rag.take TOP_RAG_CITATIONS, usable_doc_id it = some d)
    (hcited : cited_doc cs d = false) :
    ∃ c ∈ (validate_and_fix_citations cs ev).citations, c.source = some sPrivate := by
  by_cases hp : has_source sPrivate cs = true
  · exact vfc_private_persists cs ev hp
  · have hrag_ne : ev.rag.isEmpty = false := by
      obtain ⟨it, hit, -⟩ := hex
      have := List.mem_of_mem_take hit
      cases hr : ev.rag with
      | nil => rw [hr] at this; cases this
      | cons a l => rfl
    have hfix : (!ev.rag.isEmpty && !has_source sPrivate cs) = true := by
      simp [hrag_ne, Bool.eq_false_iff.mpr hp]
    have hpmem : private_citation d
        ∈ List.foldl rag_cite_step cs (ev.rag.take TOP_RAG_CITATIONS) :=
      rag_fold_exists _ cs d hex hcited
    rw [vfc_citations_eq]
    rw [if_pos hfix]
    split
    · exact ⟨private_citation d, mem_web_fold _ hpmem, rfl⟩
    · exact ⟨private_citation d, hpmem, rfl⟩

/-- If one of the first two web items has a truthy, uncited url, the
repaired list holds a web citation. -/
theorem vfc_web_of_url (cs : List Citation) (ev : Evidence) (u : String)
    (hex : ∃ it ∈ ev.web.take TOP_WEB_CITATIONS, truthy_str it.url = some u)
    (hcited : cited_url cs u = false) :
    ∃ c ∈ (validate_and_fix_citations cs ev).citations, c.source = some sWeb := by
  by_cases hw : has_source sWeb cs = true
  · exact vfc_web_persists cs ev hw
  · have hweb_ne : ev.web.isEmpty = false := by
      obtain ⟨it, hit, -⟩ := hex
      have := List.mem_of_mem_take hit
      cases hr : ev.web with
      | nil => rw [hr] at this; cases this
      | cons a l => rfl
    have hfixw : (!ev.web.isEmpty && !has_source sWeb cs) = true := by
      simp [hweb_ne, Bool.eq_false_iff.mpr hw]
    rw [vfc_citations_eq, if_pos hfixw]
    simp only [add_web_citations, add_rag_citations]
    split
    · obtain ⟨ex, hex1, hall, -⟩ := rag_fold_shape (ev.rag.take TOP_RAG_CITATIONS) cs
      rw [hex1]
      have hcited' : cited_url (cs ++ ex) u = false := by
        simp only [cited_url, List.any_append] at hcited ⊢
        rw [Bool.or_eq_false_iff]
        exact ⟨hcited, cited_url_private_extra hall⟩
      exact ⟨web_citation u, web_fold_exists _ _ u hex hcited', rfl⟩
    · exact ⟨web_citation u, web_fold_exists _ _ u hex hcited, rfl⟩

/-- C2 counterexample: catalog evidence whose single item has no usable
id — the check reports `fixed` (the claim says `warn`) and the repaired
citation list still has no private entry despite non-empty catalog
evidence. -/
theorem citation_check_counterexample :
    ev_c2.rag ≠ []
    ∧ (validate_and_fix_citations [] ev_c2).status = sFixed
    ∧ (validate_and_fix_citations [] ev_c2).citations = [] := by
  refine ⟨by decide, by decide, by decide⟩

/-- C2 amended: after the citation check, a private citation exists
whenever one already existed or some of the first 3 catalog items carries
a usable uncited id (web: first 2 items, truthy uncited url); additions
are capped at 3 catalog and 2 web citations and never duplicate a doc id
or url; the status is `pass` if a private citation already existed,
`fixed` if catalog evidence is non-empty without one (whether or not an
addition succeeded), and `warn` otherwise. -/
theorem citation_check_amended :
    (∀ (cs : List Citation) (ev : Evidence),
      (validate_and_fix_citations cs ev).status =
        (if has_source sPrivate cs then sPass
         else if ev.rag.isEmpty then sWarn else sFixed))
    ∧ (∀ cs ev, has_source sPrivate cs = true →
        ∃ c ∈ (validate_and_fix_citations cs ev).citations, c.source = some sPrivate)
    ∧ (∀ cs ev d, (∃ it ∈ ev.rag.take TOP_RAG_CITATIONS, usable_doc_id it = some d) →
        cited_doc cs d = false →
        ∃ c ∈ (validate_and_fix_citations cs ev).citations, c.source = some sPrivate)
    ∧ (∀ cs ev, has_source sWeb cs = true →
        ∃ c ∈ (validate_and_fix_citations cs ev).citations, c.source = some sWeb)
    ∧ (∀ cs ev u, (∃ it ∈ ev.web.take TOP_WEB_CITATIONS, truthy_str it.url = some u) →
        cited_url cs u = false →
        ∃ c ∈ (validate_and_fix_citations cs ev).citations, c.source = some sWeb)
    ∧ (∀ cs rag, (add_rag_citations cs rag).length ≤ cs.length + TOP_RAG_CITATIONS)
    ∧ (∀ cs web, (add_web_citations cs web).length ≤ cs.length + TOP_WEB_CITATIONS)
    ∧ (∀ cs ev, (validate_and_fix_citations cs ev).citations.length
        ≤ cs.length + TOP_RAG_CITATIONS + TOP_WEB_CITATIONS)
    ∧ (∀ cs ev d, List.countP (fun c => decide (c.doc_id = some d))
          (validate_and_fix_citations cs ev).citations
        ≤ max (List.countP (fun c => decide (c.doc_id = some d)) cs) 1)
    ∧ (∀ cs ev u, List.countP (fun c => decide (c.url = some u))
          (validate_and_fix_citations cs ev).citations
        ≤ max (List.countP (fun c => decide (c.url = some u)) cs) 1) :=
  ⟨vfc_status_eq, vfc_private_persists, vfc_private_of_usable, vfc_web_persists,
    vfc_web_of_url, add_rag_length_le, add_web_length_le, vfc_length_le,
    vfc_doc_count, vfc_url_count⟩

/-- C2 witness: the private-citation guarantee applied to catalog evidence
holding a usable doc id and an empty incoming citation list. -/
theorem citation_check_amended_witness :
    ∃ c ∈ (validate_and_fix_citations [] ev_c2w).citations, c.source = some sPrivate :=
  citation_check_amended.2.2.1 [] ev_c2w ("d1") (by decide) (by decide)

/-! ### Price-grounding lemmas -/

/-- The extracted evidence prices are exactly the truthy item prices. -/
theorem evidence_prices_iff (ev : Evidence) (p : ℚ) :
    p ∈ extract_evidence_prices ev
      ↔ ∃ it ∈ ev.rag ++ ev.web, truthy_price it.price = some p :=
  List.mem_filterMap

/-- A mentioned token escapes the ungrounded list exactly when some
evidence price lies within the tolerance. -/
theorem grounding_token_iff (ans : String) (ev : Evidence) (t : String)
    (ht : t ∈ extract_price_tokens ans) :
    (∃ p ∈ extract_evidence_prices ev,
        |parse_dollar_token t.toList - p| < PRICE_TOLERANCE)
      ↔ t ∉ find_ungrounded_prices (extract_price_tokens ans)
          (extract_evidence_prices ev) := by
  constructor
  · rintro ⟨p, hp, hlt⟩ hmem
    rcases List.mem_filter.mp hmem with ⟨-, hneg⟩
    have hany : (extract_evidence_prices ev).any
        (fun p => decide (|parse_dollar_token t.toList - p| < PRICE_TOLERANCE)) = true :=
      List.any_eq_true.mpr ⟨p, hp, decide_eq_true hlt⟩
    rw [hany] at hneg
    simp at hneg
  · intro hnot
    by_cases hany : (extract_evidence_prices ev).any
        (fun p => decide (|parse_dollar_token t.toList - p| < PRICE_TOLERANCE)) = true
    · obtain ⟨p, hp, hdec⟩ := List.any_eq_true.mp hany
      exact ⟨p, hp, of_decide_eq_true hdec⟩
    · refine absurd (?_ : t ∈ find_ungrounded_prices (extract_price_tokens ans)
        (extract_evidence_prices ev)) hnot
      show t ∈ List.filter _ (extract_price_tokens ans)
      refine List.mem_filter.mpr ⟨ht, ?_⟩
      rw [Bool.eq_false_iff.mpr hany]
      rfl

/-- With a non-empty ungrounded list the grounding check warns and reports
the list; it never touches anything else. -/
theorem grounding_warn (ans : String) (ev : Evidence)
    (h : find_ungrounded_prices (extract_price_tokens ans)
        (extract_evidence_prices ev) ≠ []) :
    verify_price_grounding ans ev
      = { status := sWarn,
          issues := [ungrounded_price_issue
            (find_ungrounded_prices (extract_price_tokens ans)
              (extract_evidence_prices ev))] } := by
  have hne : extract_price_tokens ans ≠ [] := by
    intro hnil
    exact h (by rw [hnil]; rfl)
  have hm : (extract_price_tokens ans).isEmpty = false := by
    cases hx : extract_price_tokens ans
    · exact absurd hx hne
    · rfl
  have hu : (find_ungrounded_prices (extract_price_tokens ans)
      (extract_evidence_prices ev)).isEmpty = false := by
    cases hx : find_ungrounded_prices (extract_price_tokens ans) (extract_evidence_prices ev)
    · exact absurd hx h
    · rfl
  simp [verify_price_grounding, hm, hu]

/-- On the no-safety-flag path the final answer is the citation-format
result computed from the entry answer and the repaired citations; no other
check (in particular not price grounding) modifies the answer text. -/
theorem critique_answer_formula (s : AgentState) (h : s.safety_flags = []) :
    (critique s).answer
      = (ensure_citation_format s.answer
          (validate_and_fix_citations s.citations s.evidence).citations).answer := by
  simp [critique, h, critique_main]

/-- C4: every `$`-token of the answer is reported as potentially ungrounded
exactly when no truthy evidence price (of either source) lies within the
0.01 tolerance, the warning carries the ungrounded list, and the grounding
check never modifies the answer. -/
theorem price_grounding_spec :
    (∀ (ev : Evidence) (p : ℚ), p ∈ extract_evidence_prices ev
      ↔ ∃ it ∈ ev.rag ++ ev.web, truthy_price it.price = some p)
    ∧ (∀ (ans : String) (ev : Evidence) (t : String), t ∈ extract_price_tokens ans →
        ((∃ p ∈ extract_evidence_prices ev,
            |parse_dollar_token t.toList - p| < PRICE_TOLERANCE)
          ↔ t ∉ find_ungrounded_prices (extract_price_tokens ans)
              (extract_evidence_prices ev)))
    ∧ (∀ (ans : String) (ev : Evidence),
        find_ungrounded_prices (extract_price_tokens ans) (extract_evidence_prices ev) ≠ [] →
        verify_price_grounding ans ev
          = { status := sWarn,
              issues := [ungrounded_price_issue
                (find_ungrounded_prices (extract_price_tokens ans)
                  (extract_evidence_prices ev))] })
    ∧ (∀ s : AgentState, s.safety_flags = [] →
        (critique s).answer
          = (ensure_citation_format s.answer
              (validate_and_fix_citations s.citations s.evidence).citations).answer) :=
  ⟨evidence_prices_iff, grounding_token_iff, grounding_warn, critique_answer_formula⟩

/-- C4 witness: the token `$12` is grounded by the evidence price 12. -/
theorem price_grounding_witness :
    ("$12") ∉ find_ungrounded_prices (extract_price_tokens ans_c4)
        (extract_evidence_prices ev_c4) :=
  (price_grounding_spec.2.1 ans_c4 ev_c4 ("$12") (by decide)).mp
    ⟨12, by norm_num [extract_evidence_prices, ev_c4, truthy_price], by
      have h1 : ("$12").toList.filter (fun c => !(c = dollar)) = [('1'), ('2')] := by decide
      have h3 : List.takeWhile Char.isDigit [('1'), ('2')] = [('1'), ('2')] := by decide
      have h4 : List.dropWhile Char.isDigit [('1'), ('2')] = [] := by decide
      simp only [parse_dollar_token, h1, h3, h4]
      have h2 : digits_to_nat [('1'), ('2')] = 12 := by decide
      have h5 : digits_to_nat [] = 0 := rfl
      norm_num [h2, h5, PRICE_TOLERANCE]⟩

/-! ### Structured-generation wrapper -/

/-- C8 counterexample: on the cleaned text `{} }` the initial parse fails
and the first brace-balanced span `{}` parses, yet `generate_json` raises —
its recovery span is the greedy first-`{`-to-last-`}` slice `{} }`, not the
first balanced span. -/
theorem generate_json_counterexample :
    json_parse (String.mk (strip_code_fence cex_text_c8)) = none
    ∧ spec_first_balanced_span (strip_code_fence cex_text_c8) = some [lbrace, rbrace]
    ∧ json_parse (String.mk [lbrace, rbrace]) = some (MiniJson.obj [])
    ∧ generate_json json_parse cex_text_c8
        = Except.error (GenError.invalid_json (String.mk [lbrace, rbrace, (' '), rbrace])) :=
  ⟨rfl, rfl, rfl, rfl⟩

/-- C8 amended: `generate_json` strips a surrounding code fence, returns
the parse of the cleaned text when it succeeds, otherwise attempts exactly
one recovery on the greedy first-`{`-to-last-`}` span of the cleaned text
(the regex `\x7b.*\x7d`), and raises the typed malformed-response error
when that span fails to parse or does not exist. -/
theorem generate_json_amended :
    (∀ (parse : String → Option MiniJson) (txt : String) (j : MiniJson),
        py_strip_list txt.toList ≠ [] →
        parse (String.mk (strip_code_fence txt)) = some j →
        generate_json parse txt = Except.ok j)
    ∧ (∀ (parse : String → Option MiniJson) (txt : String) (s : List Char) (j : MiniJson),
        py_strip_list txt.toList ≠ [] →
        parse (String.mk (strip_code_fence txt)) = none →
        greedy_json_span (strip_code_fence txt) = some s →
        parse (String.mk s) = some j →
        generate_json parse txt = Except.ok j)
    ∧ (∀ (parse : String → Option MiniJson) (txt : String) (s : List Char),
        py_strip_list txt.toList ≠ [] →
        parse (String.mk (strip_code_fence txt)) = none →
        greedy_json_span (strip_code_fence txt) = some s →
        parse (String.mk s) = none →
        generate_json parse txt
          = Except.error (GenError.invalid_json (String.mk ((strip_code_fence txt).take 200))))
    ∧ (∀ (parse : String → Option MiniJson) (txt : String),
        py_strip_list txt.toList ≠ [] →
        parse (String.mk (strip_code_fence txt)) = none →
        greedy_json_span (strip_code_fence txt) = none →
        generate_json parse txt
          = Except.error (GenError.no_json_found (String.mk ((strip_code_fence txt).take 200)))) := by
  have hguard : ∀ txt : String, py_strip_list txt.toList ≠ [] →
      ¬(txt = ("") ∨ py_strip_list txt.toList = []) := by
    rintro txt hstrip (rfl | hsl)
    · exact hstrip rfl
    · exact hstrip hsl
  refine ⟨?_, ?_, ?_, ?_⟩
  · intro parse txt j hstrip hp
    simp only [generate_json, if_neg (hguard txt hstrip), hp]
  · intro parse txt s j hstrip hp hspan hps
    simp only [generate_json, if_neg (hguard txt hstrip), hp, hspan, hps]
  · intro parse txt s hstrip hp hspan hps
    simp only [generate_json, if_neg (hguard txt hstrip), hp, hspan, hps]
  · intro parse txt hstrip hp hspan
    simp only [generate_json, if_neg (hguard txt hstrip), hp, hspan]

/-- C8 witness: the amended recovery path applied to `x {}` — the cleaned
text fails to parse, the greedy span `{}` parses, and the wrapper returns
the recovered object. -/
theorem generate_json_amended_witness :
    generate_json json_parse wtext_c8 = Except.ok (MiniJson.obj []) :=
  generate_json_amended.2.1 json_parse wtext_c8 [lbrace, rbrace] (MiniJson.obj [])
    (by decide) rfl rfl rfl

/-! ### Idempotence of the validator -/

theorem isPrefixList_append_self (n v : List Char) : isPrefixList n (n ++ v) = true := by
  induction n with
  | nil => rfl
  | cons c cs ih => simp [isPrefixList, ih]

/-- A needle occurring in the middle of a list is found by the scan. -/
theorem contains_list_middle (n u v : List Char) : contains_list n (u ++ n ++ v) = true := by
  induction u with
  | nil =>
    simp only [List.nil_append]
    cases hnv : n ++ v with
    | nil =>
      have hn : n = [] := (List.append_eq_nil.mp hnv).1
      subst hn
      rfl
    | cons c cs =>
      simp only [contains_list]
      rw [← hnv, isPrefixList_append_self, Bool.true_or]
  | cons c u' ih =>
    have hshift : (c :: u') ++ n ++ v = c :: (u' ++ n ++ v) := by simp
    rw [hshift]
    simp only [contains_list]
    rw [ih, Bool.or_true]

theorem lower_list_append (a b : List Char) :
    lower_list (a ++ b) = lower_list a ++ lower_list b := by
  simp [lower_list]

/-- Any text ending in the sources suffix carries a citation marker: the
lower-cased suffix contains the substring `(source`. -/
theorem markers_of_sources_suffix (a rest : String) :
    has_citation_markers (a ++ (sources_open ++ rest)) = true := by
  have hsplit : lower_list sources_open.toList
      = ("\n\n").toList ++ ("(source").toList ++ ("s: ").toList := by decide
  have hcontains : contains_substr (lower_string (a ++ (sources_open ++ rest)))
      ("(source") = true := by
    unfold contains_substr lower_string
    simp only [String.toList]
    rw [String.data_append, String.data_append, lower_list_append, lower_list_append]
    rw [show lower_list sources_open.data
        = ("\n\n").toList ++ ("(source").toList ++ ("s: ").toList from hsplit]
    rw [show lower_list a.data ++ ((("\n\n").toList ++ ("(source").toList ++ ("s: ").toList)
          ++ lower_list rest.data)
        = (lower_list a.data ++ ("\n\n").toList) ++ ("(source").toList
          ++ (("s: ").toList ++ lower_list rest.data) by
      simp [List.append_assoc]]
    exact contains_list_middle _ _ _
  unfold has_citation_markers
  rw [hcontains, Bool.true_or]

/-- `_ensure_citation_format` is stable: applied to its own output (with
the same citations) it changes nothing. -/
theorem ecf_stable (a : String) (c : List Citation) :
    (ensure_citation_format (ensure_citation_format a c).answer c).answer
      = (ensure_citation_format a c).answer := by
  by_cases hc : c.isEmpty = true
  · simp [ensure_citation_format, hc]
  · by_cases hm : has_citation_markers a = true
    · simp [ensure_citation_format, hc, hm]
    · have h1 : (ensure_citation_format a c).answer = a ++ build_citation_suffix c := by
        simp [ensure_citation_format, hc, hm]
      by_cases hp : ((c.take MAX_CITATIONS_DISPLAY).filterMap citation_part).isEmpty = true
      · have hs : build_citation_suffix c = ("") := by
          simp [build_citation_suffix, hp]
        rw [h1, hs, String.append_empty]
        rw [h1, hs, String.append_empty]
      · have hs : build_citation_suffix c
            = sources_open
              ++ (String.intercalate (", ") ((c.take MAX_CITATIONS_DISPLAY).filterMap citation_part)
                ++ (")")) := by
          rw [build_citation_suffix, if_neg (by simp [hp]), String.append_assoc]
        have hm2 : has_citation_markers (a ++ build_citation_suffix c) = true := by
          rw [hs]
          exact markers_of_sources_suffix a _
        rw [h1]
        simp [ensure_citation_format, hm2]

theorem bnot_true {b : Bool} (h : (!b) = true) : b = false := by
  cases b
  · rfl
  · cases h

theorem bfalse_not {b : Bool} (h : b = false) : ¬(b = true) := by
  rw [h]
  exact Bool.false_ne_true

theorem add_rag_or (cs : List Citation) (rag : List EvidenceItem) :
    add_rag_citations cs rag = cs
    ∨ has_source sPrivate (add_rag_citations cs rag) = true :=
  rag_fold_or _ cs

theorem add_web_or (cs : List Citation) (web : List EvidenceItem) :
    add_web_citations cs web = cs
    ∨ has_source sWeb (add_web_citations cs web) = true :=
  web_fold_or _ cs

theorem has_web_add_rag (cs : List Citation) (rag : List EvidenceItem) :
    has_source sWeb (add_rag_citations cs rag) = has_source sWeb cs :=
  has_web_rag_fold _ cs

theorem has_private_add_web (cs : List Citation) (web : List EvidenceItem) :
    has_source sPrivate (add_web_citations cs web) = has_source sPrivate cs :=
  has_private_web_fold _ cs

/-- The repaired citation list is a fixed point of the repair pass. -/
theorem vfc_idem (cs : List Citation) (ev : Evidence) :
    (validate_and_fix_citations (validate_and_fix_citations cs ev).citations ev).citations
      = (validate_and_fix_citations cs ev).citations := by
  by_cases hra : (!ev.rag.isEmpty && !has_source sPrivate cs) = true
  · have hragne := bnot_true ((Bool.and_eq_true _ _).mp hra).1
    have hpcs := bnot_true ((Bool.and_eq_true _ _).mp hra).2
    by_cases hwe : (!ev.web.isEmpty && !has_source sWeb cs) = true
    · have hwebne := bnot_true ((Bool.and_eq_true _ _).mp hwe).1
      have hwcs := bnot_true ((Bool.and_eq_true _ _).mp hwe).2
      have hc1 : (validate_and_fix_citations cs ev).citations
          = add_web_citations (add_rag_citations cs ev.rag) ev.web := by
        rw [vfc_citations_eq, if_pos hwe, if_pos hra]
      rcases add_rag_or cs ev.rag with hnoopR | hhp
      · rcases add_web_or (add_rag_citations cs ev.rag) ev.web with hnoopW | hhw
        · have hcs : (validate_and_fix_citations cs ev).citations = cs := by
            rw [hc1, hnoopW, hnoopR]
          rw [hcs]
          exact hcs
        · have hpc1 : has_source sPrivate ((validate_and_fix_citations cs ev).citations)
              = false := by
            rw [hc1, has_private_add_web, hnoopR]
            exact hpcs
          have hwc1 : has_source sWeb ((validate_and_fix_citations cs ev).citations)
              = true := by
            rw [hc1]
            exact hhw
          have hra2 : (!ev.rag.isEmpty
              && !has_source sPrivate ((validate_and_fix_citations cs ev).citations))
              = true := by
            rw [hpc1, hragne]
            rfl
          have hwe2 : (!ev.web.isEmpty
              && !has_source sWeb ((validate_and_fix_citations cs ev).citations))
              = false := by
            rw [hwc1]
            simp
          rw [vfc_citations_eq ((validate_and_fix_citations cs ev).citations) ev,
            if_neg (bfalse_not hwe2), if_pos hra2]
          obtain ⟨exW, hexW, -, -⟩ := web_fold_shape (ev.web.take TOP_WEB_CITATIONS)
            (add_rag_citations cs ev.rag)
          rw [hnoopR] at hexW
          rw [hc1, hnoopR]
          rw [show add_web_citations cs ev.web = cs ++ exW from hexW]
          exact rag_fold_noop_append hnoopR exW
      · have hpc1 : has_source sPrivate ((validate_and_fix_citations cs ev).citations)
            = true := by
          rw [hc1, has_private_add_web]
          exact hhp
        have hra2 : (!ev.rag.isEmpty
            && !has_source sPrivate ((validate_and_fix_citations cs ev).citations))
            = false := by
          rw [hpc1]
          simp
        rcases add_web_or (add_rag_citations cs ev.rag) ev.web with hnoopW | hhw
        · have hc1' : (validate_and_fix_citations cs ev).citations
              = add_rag_citations cs ev.rag := by
            rw [hc1, hnoopW]
          have hwc1 : has_source sWeb ((validate_and_fix_citations cs ev).citations)
              = false := by
            rw [hc1', has_web_add_rag]
            exact hwcs
          have hwe2 : (!ev.web.isEmpty
              && !has_source sWeb ((validate_and_fix_citations cs ev).citations))
              = true := by
            rw [hwc1, hwebne]
            rfl
          rw [vfc_citations_eq ((validate_and_fix_citations cs ev).citations) ev,
            if_pos hwe2, if_neg (bfalse_not hra2)]
          rw [hc1']
          exact hnoopW
        · have hwc1 : has_source sWeb ((validate_and_fix_citations cs ev).citations)
              = true := by
            rw [hc1]
            exact hhw
          have hwe2 : (!ev.web.isEmpty
              && !has_source sWeb ((validate_and_fix_citations cs ev).citations))
              = false := by
            rw [hwc1]
            simp
          rw [vfc_citations_eq ((validate_and_fix_citations cs ev).citations) ev,
            if_neg (bfalse_not hwe2), if_neg (bfalse_not hra2)]
    · have hc1 : (validate_and_fix_citations cs ev).citations
          = add_rag_citations cs ev.rag := by
        rw [vfc_citations_eq, if_neg hwe, if_pos hra]
      rcases add_rag_or cs ev.rag with hnoopR | hhp
      · have hcs : (validate_and_fix_citations cs ev).citations = cs := by
          rw [hc1, hnoopR]
        rw [hcs]
        exact hcs
      · have hpc1 : has_source sPrivate ((validate_and_fix_citations cs ev).citations)
            = true := by
          rw [hc1]
          exact hhp
        have hra2 : (!ev.rag.isEmpty
            && !has_source sPrivate ((validate_and_fix_citations cs ev).citations))
            = false := by
          rw [hpc1]
          simp
        have hwe2 : (!ev.web.isEmpty
            && !has_source sWeb ((validate_and_fix_citations cs ev).citations))
            = false := by
          rw [hc1, has_web_add_rag]
          exact Bool.eq_false_iff.mpr hwe
        rw [vfc_citations_eq ((validate_and_fix_citations cs ev).citations) ev,
          if_neg (bfalse_not hwe2), if_neg (bfalse_not hra2)]
  · by_cases hwe : (!ev.web.isEmpty && !has_source sWeb cs) = true
    · have hwebne := bnot_true ((Bool.and_eq_true _ _).mp hwe).1
      have hc1 : (validate_and_fix_citations cs ev).citations
          = add_web_citations cs ev.web := by
        rw [vfc_citations_eq, if_pos hwe, if_neg hra]
      have hra2 : (!ev.rag.isEmpty
          && !has_source sPrivate ((validate_and_fix_citations cs ev).citations))
          = false := by
        rw [hc1, has_private_add_web]
        exact Bool.eq_false_iff.mpr hra
      rcases add_web_or cs ev.web with hnoopW | hhw
      · have hcs : (validate_and_fix_citations cs ev).citations = cs := by
          rw [hc1, hnoopW]
        rw [hcs]
        exact hcs
      · have hwc1 : has_source sWeb ((validate_and_fix_citations cs ev).citations)
            = true := by
          rw [hc1]
          exact hhw
        have hwe2 : (!ev.web.isEmpty
            && !has_source sWeb ((validate_and_fix_citations cs ev).citations))
            = false := by
          rw [hwc1]
          simp
        rw [vfc_citations_eq ((validate_and_fix_citations cs ev).citations) ev,
          if_neg (bfalse_not hwe2), if_neg (bfalse_not hra2)]
    · have hcs : (validate_and_fix_citations cs ev).citations = cs := by
        rw [vfc_citations_eq, if_neg hwe, if_neg hra]
      rw [hcs]
      exact hcs

theorem critique_main_answer (s : AgentState) :
    (critique_main s).answer
      = (ensure_citation_format s.answer
          (validate_and_fix_citations s.citations s.evidence).citations).answer := rfl

theorem critique_main_citations (s : AgentState) :
    (critique_main s).citations
      = (validate_and_fix_citations s.citations s.evidence).citations := rfl

theorem critique_main_evidence (s : AgentState) :
    (critique_main s).evidence = s.evidence := rfl

theorem critique_main_safety (s : AgentState) :
    (critique_main s).safety_flags = s.safety_flags := rfl

/-- C3: the validator leaves `evidence` and `safety_flags` unchanged, and
running it a second time on its own output yields the same `answer` and
the same `citations` as the single run. -/
theorem validator_idempotent (s : AgentState) :
    (critique s).evidence = s.evidence
    ∧ (critique s).safety_flags = s.safety_flags
    ∧ (critique (critique s)).answer = (critique s).answer
    ∧ (critique (critique s)).citations = (critique s).citations := by
  cases hs : s.safety_flags with
  | cons f fs => refine ⟨by simp [critique, hs], by simp [critique, hs],
      by simp [critique, hs], by simp [critique, hs]⟩
  | nil =>
    have h1 : critique s = critique_main s := by simp [critique, hs]
    have hsafety2 : (critique_main s).safety_flags = [] := by
      rw [critique_main_safety, hs]
    have h2 : critique (critique_main s) = critique_main (critique_main s) := by
      simp [critique, hsafety2]
    refine ⟨by rw [h1]; exact critique_main_evidence s,
      by rw [h1, critique_main_safety, hs], ?_, ?_⟩
    · rw [h1, h2]
      simp only [critique_main_answer, critique_main_citations, critique_main_evidence]
      rw [vfc_idem]
      exact ecf_stable s.answer ((validate_and_fix_citations s.citations s.evidence).citations)
    · rw [h1, h2]
      simp only [critique_main_citations, critique_main_evidence]
      exact vfc_idem s.citations s.evidence

/-- C1 witness: the amended statement at the flagged concrete state. -/
theorem safety_gate_amended_witness :
    (critique cex_state_c1).answer = generate_safety_response cex_state_c1.safety_flags
    ∧ (critique cex_state_c1).citations = cex_state_c1.citations
    ∧ (critique cex_state_c1).log = cex_state_c1.log ++ [LogEntry.validation
        { checks_safety := some sFail, safety_flags := some cex_state_c1.safety_flags }] :=
  safety_gate_amended cex_state_c1 (by decide)

end Veca
